import Mathlib

/-!
# Termite: MIDI router and keyboard dispatcher

A shallow embedding of `src/termite.cpp` / `src/termite.h`.

* A finite `laf_float` is an exact rational (`ℚ`): the rounding of floating point
  arithmetic is not modelled. A division by a zero `resolution` gives an infinity or a
  NaN: `keyStep` and `midiApplyLearn` say which, and a NaN in `current_value` is the flag
  `Control.nan`.
* An `int` has 32 bits: `toInt` converts a value outside its range to `INT_MIN`.
* A `Control*` is an address (`Ptr`); the `Control` objects live in `Termite.heap`.
  A null pointer is `none`.
* `std::map` members are partial functions; `map::at` on a missing key throws, which
  is the result `none` of the embedding.
* Every call into the sound engine, the display and the mutex is appended to
  `Termite.trace`, in program order.
-/

namespace laf

/-! ## Constants -/

/-- Modelled from the spec: the constant `MIDI_SIZE` is declared outside `termite.cpp`;
the spec fixes the velocity scale `data2/128` and the controller scale `data2/127`,
that is `MIDI_SIZE = 128`. -/
def MIDI_SIZE : Int := 128

/-- Source: `#define PITCH_BEND_PORT 224`. -/
def PITCH_BEND_PORT : Int := 224

/-- Source: `#define SUSTAIN_PORT 176`. -/
def SUSTAIN_PORT : Int := 176

/-- Source: `#define SUSTAIN_ID 64`. -/
def SUSTAIN_ID : Int := 64

/-- Source: `#define NUM_CHANNELS 2`. -/
def NUM_CHANNELS : Nat := 2

/-- Source: `#define KEYBOARD "awsedftgyhujkolp;'"`, as the character codes of
a w s e d f t g y h u j k o l p ; and the apostrophe. -/
def KEYBOARD : List Int :=
  [97, 119, 115, 101, 100, 102, 116, 103, 121, 104, 117, 106, 107, 111, 108, 112, 59, 39]

/-- The curses key code `KEY_DOWN` (octal 0402). -/
def KEY_DOWN : Int := 258

/-- The curses key code `KEY_UP` (octal 0403). -/
def KEY_UP : Int := 259

/-- The curses key code `KEY_LEFT` (octal 0404). -/
def KEY_LEFT : Int := 260

/-- The curses key code `KEY_RIGHT` (octal 0405). -/
def KEY_RIGHT : Int := 261

/-- The curses macro `KEY_F(n)`, which is `KEY_F0 + n` with `KEY_F0` octal 0410. -/
def KEY_F (n : Int) : Int := 264 + n

/-- The character code of the toggle key, the letter m. -/
def KEY_m : Int := 109

/-- The character code of the clear key, the letter c. -/
def KEY_c : Int := 99

/-! ## Data model -/

/-- An address of a `Control` object. -/
abbrev Ptr := Nat

/-- Source: `enum InputState` of `termite.h`. -/
inductive InputState where
  | STANDARD
  | MIDI_LEARN
  deriving DecidableEq, Repr

/-- Modelled from the spec: the struct `Control` is declared outside `termite.cpp`.
It has the fields the code reads and writes: the sink `value` (an address of a sound
engine value), `min`, `max`, `current_value`, the integer step count `resolution` and the
bound controller id `midi_learn`, where `0` is the unset binding. The `laf_float` in
`current_value` is the rational `current_value`, or NaN when `nan` is set; `min` and `max`
are finite. -/
structure Control where
  value : Nat
  min : ℚ
  max : ℚ
  current_value : ℚ
  resolution : Int
  midi_learn : Int
  nan : Bool := false
  deriving DecidableEq, Repr

/-- One observable action of the program: a call on the mutex, the sound engine, the
display or the audio stream. -/
inductive Action where
  | lock
  | unlock
  | noteOn (note : Int) (velocity : Option ℚ)
  | noteOff (note : Int)
  | sustainOn
  | sustainOff
  | valueSet (sink : Nat) (v : ℚ)
  | valueSetNaN (sink : Nat)
  | drawControl (control : Ptr) (active : Bool)
  | drawControlStatus (control : Ptr) (armed : Bool)
  | process
  | mutexDestroy
  | guiStop
  | stopStream
  | closeStream
  deriving DecidableEq, Repr

/-- Modelled from the spec: the class `TermiteGui` is declared outside `termite.cpp`.
It keeps the navigation order of the control names (insertion order) and the position of
the selected one. -/
structure TermiteGui where
  order : List String
  current : Nat

/-- Modelled from the spec: `TermiteGui::getCurrentControl`, the selected name. -/
def TermiteGui.getCurrentControl (g : TermiteGui) : String :=
  g.order.getD g.current ""

/-- Modelled from the spec: `TermiteGui::getNextControl`, which moves the selection to
the next name in navigation order, wrapping, and returns it. -/
def TermiteGui.getNextControl (g : TermiteGui) : String × TermiteGui :=
  let g1 : TermiteGui := { g with current := (g.current + 1) % g.order.length }
  (g1.getCurrentControl, g1)

/-- Modelled from the spec: `TermiteGui::getPrevControl`, which moves the selection to
the previous name in navigation order, wrapping, and returns it. -/
def TermiteGui.getPrevControl (g : TermiteGui) : String × TermiteGui :=
  let g1 : TermiteGui :=
    { g with current := (g.current + g.order.length - 1) % g.order.length }
  (g1.getCurrentControl, g1)

/-- Source: the members of `class Termite` that `textInput` and `processMidi` use,
with the heap of `Control` objects and the trace of actions. -/
structure Termite where
  gui_ : TermiteGui
  midi_learn_ : Int → Option Ptr
  state_ : InputState
  controls_ : String → Option Ptr
  current_control_ : String
  pitch_bend_ : Option Ptr
  heap : Ptr → Control
  trace : List Action

/-- Append actions to the trace. -/
def Termite.emit (s : Termite) (as : List Action) : Termite :=
  { s with trace := s.trace ++ as }

/-- Modelled from the spec: the macro `CLAMP` is declared outside `termite.cpp`; it
clamps its first argument into the range given by the other two. -/
def CLAMP (v lo hi : ℚ) : ℚ :=
  if v < lo then lo else if v > hi then hi else v

/-- The least value of the 32-bit type `int`. -/
def INT_MIN : Int := -2147483648

/-- The greatest value of the 32-bit type `int`. -/
def INT_MAX : Int := 2147483647

/-- The conversion of a finite `laf_float` to `int` (line 249), which drops the
fractional part. When the result does not fit the type `int` the conversion is not
defined by the language; the conversion instruction of the x86-64 target then yields
`INT_MIN`, and so does the embedding. -/
def toInt (q : ℚ) : Int :=
  let t : Int := if 0 ≤ q then ⌊q⌋ else ⌈q⌉
  if INT_MIN ≤ t ∧ t ≤ INT_MAX then t else INT_MIN

/-- Source: `control->value->set(control->current_value)`, the push of the value of a
control to its sink. -/
def pushValue (c : Control) : Action :=
  if c.nan then Action.valueSetNaN c.value else Action.valueSet c.value c.current_value

/-! ## Operations -/

/-- Source: `Termite::eraseMidiLearn`. -/
def eraseMidiLearn (s : Termite) (control : Ptr) : Termite :=
  if (s.heap control).midi_learn ≠ 0 then
    { s with
      midi_learn_ := Function.update s.midi_learn_ (s.heap control).midi_learn none
      heap := Function.update s.heap control { s.heap control with midi_learn := 0 } }
  else s

/-- Source: `Termite::processMidi`, lines 214-222: the note event branch. -/
def midiNoteEvent (s : Termite) (midi_port midi_id midi_val : Int) : Termite :=
  if 144 ≤ midi_port ∧ midi_port < 160 then
    if midi_val ≠ 0 then
      s.emit [Action.noteOn midi_id (some ((1 * (midi_val : ℚ)) / (MIDI_SIZE : ℚ)))]
    else
      s.emit [Action.noteOff midi_id]
  else s

/-- Source: `Termite::processMidi`, lines 223-244: the chain of `if`/`else if` that
starts at the note-off test. A null `pitch_bend_` cannot be dereferenced. -/
def midiDispatch (s : Termite) (selected_control : Ptr) (midi_port midi_id midi_val : Int) :
    Option Termite :=
  if 128 ≤ midi_port ∧ midi_port < 144 then
    some (s.emit [Action.noteOff midi_id])
  else if midi_port = PITCH_BEND_PORT then
    match s.pitch_bend_ with
    | none => none
    | some pitch_bend =>
      some (s.emit
        [Action.valueSet (s.heap pitch_bend).value
            ((2 * (midi_val : ℚ)) / ((MIDI_SIZE - 1 : Int) : ℚ) - 1),
         Action.drawControl pitch_bend (decide (selected_control = pitch_bend))])
  else if midi_port = SUSTAIN_PORT ∧ midi_id = SUSTAIN_ID then
    if midi_val ≠ 0 then s.emit [Action.sustainOn] else s.emit [Action.sustainOff]
  else if s.state_ = InputState.MIDI_LEARN ∧ midi_port < 254 then
    let s1 := eraseMidiLearn s selected_control
    let s2 : Termite :=
      { s1 with
        midi_learn_ := Function.update s1.midi_learn_ midi_id (some selected_control)
        heap := Function.update s1.heap selected_control
          { s1.heap selected_control with midi_learn := midi_id }
        state_ := InputState.STANDARD }
    some (s2.emit [Action.drawControlStatus selected_control false])
  else some s

/-- Source: `Termite::processMidi`, lines 248-251: the value a bound control gets from
the controller value `midi_val`, for a `resolution` other than `0`, in exact arithmetic.
(For `resolution = 0` the code divides `0` by `0`: see `midiApplyLearn`.) -/
def midiLearnValue (c : Control) (midi_val : Int) : ℚ :=
  let resolution : ℚ := (c.resolution : ℚ)
  let index : Int := toInt (resolution * (midi_val : ℚ) / ((MIDI_SIZE - 1 : Int) : ℚ))
  c.min + (index : ℚ) * (c.max - c.min) / resolution

/-- Source: `Termite::processMidi`, lines 246-255: the update of the control bound to
`midi_id`, if there is one. For `resolution = 0` the index is `0` and the value is
`min + 0 · (max − min) / 0`, a NaN; for every other `resolution` it is finite. -/
def midiApplyLearn (s : Termite) (selected_control : Ptr) (midi_id midi_val : Int) : Termite :=
  match s.midi_learn_ midi_id with
  | none => s
  | some midi_control =>
    let c := s.heap midi_control
    let c1 : Control :=
      { c with current_value := midiLearnValue c midi_val, nan := decide (c.resolution = 0) }
    let s1 : Termite := { s with heap := Function.update s.heap midi_control c1 }
    s1.emit
      [pushValue c1,
       Action.drawControl midi_control (decide (selected_control = midi_control)),
       Action.drawControlStatus midi_control false]

/-- Source: `Termite::processMidi`. The result is `none` when `controls_.at` throws or
the null `pitch_bend_` is dereferenced. -/
def processMidi (s : Termite) (message : List (Fin 256)) : Option Termite :=
  if message.length < 3 then some s
  else
    let s0 := s.emit [Action.lock]
    let midi_port : Int := ((message.getD 0 0).val : Int)
    let midi_id : Int := ((message.getD 1 0).val : Int)
    let midi_val : Int := ((message.getD 2 0).val : Int)
    match s0.controls_ s0.current_control_ with
    | none => none
    | some selected_control =>
      let s1 := midiNoteEvent s0 midi_port midi_id midi_val
      match midiDispatch s1 selected_control midi_port midi_id midi_val with
      | none => none
      | some s2 =>
        let s3 := midiApplyLearn s2 selected_control midi_id midi_val
        some (s3.emit [Action.unlock])

/-- Source: `Termite::textInput`, the `default` case: the loop over `KEYBOARD`,
from position `i` on. -/
def keyboardNotes (key : Int) : List Int → Nat → List Action
  | [], _ => []
  | k :: ks, i =>
    (if k = key then [Action.lock, Action.noteOn (48 + (i : Int)) none, Action.unlock] else [])
      ++ keyboardNotes key ks (i + 1)

/-- Source: `Termite::textInput`, lines 108-109 and 112-113: the control after
`current_value += step` (`up`) or `current_value -= step`, with
`step = (max − min) / resolution`. For `resolution = 0` the step is a NaN when
`max = min`, which makes the value a NaN, and else an infinity, which makes a value that
is not a NaN an infinity of the same or of the other sign: `+∞` is represented by a
rational above `min` and `max` and `−∞` by a rational below them, which the clamp of line
125, the next access to the value, treats as it treats the infinity. -/
def keyStep (c : Control) (up : Bool) : Control :=
  if c.resolution ≠ 0 then
    if up then
      { c with current_value := c.current_value + (c.max - c.min) / (c.resolution : ℚ) }
    else
      { c with current_value := c.current_value - (c.max - c.min) / (c.resolution : ℚ) }
  else if c.max - c.min = 0 then { c with nan := true }
  else if (0 < c.max - c.min) = (up = true) then
    { c with current_value := Max.max c.min c.max + 1 }
  else
    { c with current_value := Min.min c.min c.max - 1 }

/-- Source: `Termite::textInput`, lines 82-123: the `switch`. It yields the state and the
name in the local variable `current_control`. -/
def textInputSwitch (s : Termite) (current_control : String) (control : Ptr) (key : Int) :
    Termite × String :=
  if key = KEY_m then
    let s1 := s.emit [Action.lock]
    let s2 : Termite :=
      if s1.state_ ≠ InputState.MIDI_LEARN then { s1 with state_ := InputState.MIDI_LEARN }
      else { s1 with state_ := InputState.STANDARD }
    (s2.emit [Action.unlock], current_control)
  else if key = KEY_c then
    let s1 := s.emit [Action.lock]
    let s2 := eraseMidiLearn s1 control
    let s3 : Termite := { s2 with state_ := InputState.STANDARD }
    (s3.emit [Action.unlock], current_control)
  else if key = KEY_UP then
    let r := s.gui_.getPrevControl
    let s1 : Termite := { s with gui_ := r.2, state_ := InputState.STANDARD }
    (s1.emit [Action.drawControl control false], r.1)
  else if key = KEY_DOWN then
    let r := s.gui_.getNextControl
    let s1 : Termite := { s with gui_ := r.2, state_ := InputState.STANDARD }
    (s1.emit [Action.drawControl control false], r.1)
  else if key = KEY_RIGHT then
    let c1 : Control := keyStep (s.heap control) true
    ({ s with heap := Function.update s.heap control c1 }, current_control)
  else if key = KEY_LEFT then
    let c1 : Control := keyStep (s.heap control) false
    ({ s with heap := Function.update s.heap control c1 }, current_control)
  else
    (s.emit (keyboardNotes key KEYBOARD 0), current_control)

/-- Source: `Termite::textInput`, lines 124-130: clamp the selected control, push its
value to the sink and redraw. The comparisons of `CLAMP` are false for a NaN, which stays
a NaN. -/
def textInputFinish (s : Termite) (control : Ptr) : Termite :=
  let c := s.heap control
  let c1 : Control := { c with current_value := CLAMP c.current_value c.min c.max }
  let s1 : Termite := { s with heap := Function.update s.heap control c1 }
  s1.emit
    [pushValue c1,
     Action.drawControl control true,
     Action.drawControlStatus control (decide (s1.state_ = InputState.MIDI_LEARN))]

/-- Source: `Termite::textInput`. The result is `none` when `controls_.at` throws. -/
def textInput (s : Termite) (key : Int) : Option (Termite × Bool) :=
  if key = KEY_F 1 then some (s, false)
  else
    let current_control := s.gui_.getCurrentControl
    match s.controls_ current_control with
    | none => none
    | some control =>
      let r := textInputSwitch s current_control control key
      match r.1.controls_ r.2 with
      | none => none
      | some control1 => some (textInputFinish r.1 control1, true)

/-- Source: `Termite::processAudio`, lines 177-180: the inner loop over the channels
`c = 0 .. NUM_CHANNELS - 1` for the frame `i`, as a fold over the channel numbers. -/
def processAudioFrame (buffer : Nat → ℚ) (out_buffer : Nat → ℚ) (i : Nat) : Nat → ℚ :=
  (List.range NUM_CHANNELS).foldl
    (fun out c => Function.update out (NUM_CHANNELS * i + c) (buffer i)) out_buffer

/-- Source: `Termite::processAudio`. The rendered mono block of the sound engine is
`buffer`, the memory behind `out_buffer` is a function from sample positions. -/
def processAudio (s : Termite) (buffer : Nat → ℚ) (out_buffer : Nat → ℚ) (n_frames : Nat) :
    Termite × (Nat → ℚ) :=
  let s1 := s.emit [Action.lock, Action.process, Action.unlock]
  (s1, (List.range n_frames).foldl (fun out i => processAudioFrame buffer out i) out_buffer)

/-- Source: `Termite::stop`. A failure of `stopStream` is caught and printed, so the
call is made in either case; `isStreamOpen` is the answer of the audio device. -/
def stop (s : Termite) (isStreamOpen : Bool) : Termite :=
  let s1 := s.emit [Action.mutexDestroy]
  let s2 := s1.emit [Action.guiStop]
  let s3 := s2.emit [Action.stopStream]
  if isStreamOpen then s3.emit [Action.closeStream] else s3

/-- Source: the constructor `Termite::Termite`. It sets `state_` to `STANDARD` and
`pitch_bend_` to the null pointer; the maps and the string `current_control_` are
default-constructed, that is empty. The `Control` objects belong to the sound engine. -/
def Termite.construct (heap : Ptr → Control) : Termite where
  gui_ := { order := [], current := 0 }
  midi_learn_ := fun _ => none
  state_ := InputState.STANDARD
  controls_ := fun _ => none
  current_control_ := ""
  pitch_bend_ := none
  heap := heap
  trace := []

/-- Source: `Termite::setupGui`. The registry of the sound engine is `synthControls`;
`gui_.addControls` makes its names the navigation order and selects the first one. -/
def setupGui (s : Termite) (synthControls : List (String × Ptr)) : Option Termite :=
  let g : TermiteGui := { order := synthControls.map Prod.fst, current := 0 }
  let s1 : Termite := { s with controls_ := fun n => synthControls.lookup n, gui_ := g }
  match s1.controls_ s1.gui_.getCurrentControl with
  | none => none
  | some control =>
    some (s1.emit [Action.drawControl control true, Action.drawControlStatus control false])

/-! ## Call sequences -/

/-- One call from outside: a MIDI message for `processMidi` or a key for `textInput`. -/
inductive Call where
  | midi (message : List (Fin 256))
  | key (key : Int)

/-- Perform one call. -/
def step (s : Termite) : Call → Option Termite
  | Call.midi message => processMidi s message
  | Call.key key => (textInput s key).map Prod.fst

/-- Perform a sequence of calls, one at a time. -/
def run (s : Termite) : List Call → Option Termite
  | [] => some s
  | c :: cs => (step s c).bind (fun s1 => run s1 cs)

/-! ## Predicates on states and traces -/

/-- Every control has `min ≤ max`, a positive `resolution` and a value, not a NaN, in
range. -/
def RangeInv (s : Termite) : Prop :=
  ∀ p, (s.heap p).min ≤ (s.heap p).max ∧ 0 < (s.heap p).resolution ∧
    (s.heap p).nan = false ∧
    (s.heap p).min ≤ (s.heap p).current_value ∧ (s.heap p).current_value ≤ (s.heap p).max

/-- Every control has `min ≤ max` and a value, not a NaN, in range. -/
def BoundsInv (s : Termite) : Prop :=
  ∀ p, (s.heap p).min ≤ (s.heap p).max ∧ (s.heap p).nan = false ∧
    (s.heap p).min ≤ (s.heap p).current_value ∧ (s.heap p).current_value ≤ (s.heap p).max

/-- The display holds what `gui_.addControls(controls_)` gave it: a selected position
inside a navigation order all of whose names are registered. -/
def GuiInv (s : Termite) : Prop :=
  s.gui_.current < s.gui_.order.length ∧ ∀ n ∈ s.gui_.order, ∃ p, s.controls_ n = some p

/-- A byte of a MIDI message. -/
def byte (n : Nat) : Fin 256 := ⟨n % 256, Nat.mod_lt n (by decide)⟩

/-- The note-on actions of the sound engine. -/
def isNoteOn : Action → Bool
  | Action.noteOn _ _ => true
  | _ => false

/-- Whether the mutex is held after the actions, given whether it was held before. -/
def heldAfter : Bool → List Action → Bool
  | held, [] => held
  | _, Action.lock :: as => heldAfter true as
  | _, Action.unlock :: as => heldAfter false as
  | held, _ :: as => heldAfter held as

/-- Whether every write to a sink of the sound engine in the actions happens while the
mutex is held, given whether it was held before. -/
def sinkWritesCovered : Bool → List Action → Bool
  | _, [] => true
  | _, Action.lock :: as => sinkWritesCovered true as
  | _, Action.unlock :: as => sinkWritesCovered false as
  | held, Action.valueSet _ _ :: as => held && sinkWritesCovered held as
  | held, Action.valueSetNaN _ :: as => held && sinkWritesCovered held as
  | held, _ :: as => sinkWritesCovered held as

/-- The position of the first occurrence of an action in a trace. -/
def firstIndex (a : Action) (as : List Action) : Nat :=
  as.indexOf a

/-! ## Sample states -/

/-- A control with the range `[0, 1]`, one step, the value `0`, the sink `7` and no
binding. -/
def knob : Control where
  value := 7
  min := 0
  max := 1
  current_value := 0
  resolution := 1
  midi_learn := 0

/-- A state as after startup with the controls `""` at address `1` and `"x"` at address
`2`: the first one selected, an empty reverse map, the null `pitch_bend_`, the empty
`current_control_`; the trace is empty. -/
def st0 : Termite where
  gui_ := { order := ["", "x"], current := 0 }
  midi_learn_ := fun _ => none
  state_ := InputState.STANDARD
  controls_ := fun n => if n = "" then some 1 else if n = "x" then some 2 else none
  current_control_ := ""
  pitch_bend_ := none
  heap := fun _ => knob
  trace := []

/-- The state `st0` with the control at address `1` bound to the controller id `1`. -/
def st1 : Termite :=
  { st0 with
    midi_learn_ := fun k => if k = 1 then some 1 else none
    heap := fun _ => { knob with midi_learn := 1 } }

/-! ## Frame lemmas -/

theorem processMidi_cons (s : Termite) (b0 b1 b2 : Fin 256) (rest : List (Fin 256)) :
    processMidi s (b0 :: b1 :: b2 :: rest) =
      match s.controls_ s.current_control_ with
      | none => none
      | some sel =>
        match midiDispatch (midiNoteEvent (s.emit [Action.lock]) b0.val b1.val b2.val)
            sel b0.val b1.val b2.val with
        | none => none
        | some s2 => some ((midiApplyLearn s2 sel b1.val b2.val).emit [Action.unlock]) := by
  have h : ¬ (b0 :: b1 :: b2 :: rest).length < 3 := by simp
  simp only [processMidi, if_neg h]
  rfl

theorem midiNoteEvent_frame (s : Termite) (p i v : Int) :
    (midiNoteEvent s p i v).heap = s.heap ∧
    (midiNoteEvent s p i v).midi_learn_ = s.midi_learn_ ∧
    (midiNoteEvent s p i v).state_ = s.state_ ∧
    (midiNoteEvent s p i v).pitch_bend_ = s.pitch_bend_ ∧
    (midiNoteEvent s p i v).controls_ = s.controls_ ∧
    (midiNoteEvent s p i v).current_control_ = s.current_control_ ∧
    (midiNoteEvent s p i v).gui_ = s.gui_ := by
  unfold midiNoteEvent
  split_ifs <;> simp [Termite.emit]

theorem eraseMidiLearn_heap (s : Termite) (c q : Ptr) :
    ((eraseMidiLearn s c).heap q).value = (s.heap q).value ∧
    ((eraseMidiLearn s c).heap q).min = (s.heap q).min ∧
    ((eraseMidiLearn s c).heap q).max = (s.heap q).max ∧
    ((eraseMidiLearn s c).heap q).resolution = (s.heap q).resolution ∧
    ((eraseMidiLearn s c).heap q).current_value = (s.heap q).current_value := by
  unfold eraseMidiLearn
  split_ifs with h
  · by_cases hq : q = c
    · subst hq; simp
    · simp [Function.update_noteq hq]
  · simp

theorem eraseMidiLearn_frame (s : Termite) (c : Ptr) :
    (eraseMidiLearn s c).controls_ = s.controls_ ∧
    (eraseMidiLearn s c).gui_ = s.gui_ ∧
    (eraseMidiLearn s c).state_ = s.state_ ∧
    (eraseMidiLearn s c).trace = s.trace ∧
    (eraseMidiLearn s c).current_control_ = s.current_control_ ∧
    (eraseMidiLearn s c).pitch_bend_ = s.pitch_bend_ := by
  unfold eraseMidiLearn
  split_ifs <;> simp

theorem eraseMidiLearn_nan (s : Termite) (c q : Ptr) :
    ((eraseMidiLearn s c).heap q).nan = (s.heap q).nan := by
  unfold eraseMidiLearn
  split_ifs with h
  · by_cases hq : q = c
    · subst hq; simp
    · simp [Function.update_noteq hq]
  · rfl

theorem midiDispatch_heap (s s2 : Termite) (sel : Ptr) (p i v : Int)
    (h : midiDispatch s sel p i v = some s2) (q : Ptr) :
    (s2.heap q).value = (s.heap q).value ∧
    (s2.heap q).min = (s.heap q).min ∧
    (s2.heap q).max = (s.heap q).max ∧
    (s2.heap q).resolution = (s.heap q).resolution ∧
    (s2.heap q).current_value = (s.heap q).current_value := by
  unfold midiDispatch at h
  split_ifs at h with h1 h2 h3 h4 h5
  · cases h; simp [Termite.emit]
  · cases hp : s.pitch_bend_ with
    | none => simp [hp] at h
    | some pb => simp [hp] at h; subst h; simp [Termite.emit]
  · cases h; simp [Termite.emit]
  · cases h; simp [Termite.emit]
  · simp only [Option.some.injEq] at h
    subst h
    have := eraseMidiLearn_heap s sel q
    by_cases hq : q = sel
    · subst hq
      simpa [Termite.emit] using this
    · simpa [Termite.emit, Function.update_noteq hq] using this
  · cases h; simp

theorem midiDispatch_nan (s s2 : Termite) (sel : Ptr) (p i v : Int)
    (h : midiDispatch s sel p i v = some s2) (q : Ptr) :
    (s2.heap q).nan = (s.heap q).nan := by
  unfold midiDispatch at h
  split_ifs at h with h1 h2 h3 h4 h5
  · cases h; simp [Termite.emit]
  · cases hp : s.pitch_bend_ with
    | none => simp [hp] at h
    | some pb => simp [hp] at h; subst h; simp [Termite.emit]
  · cases h; simp [Termite.emit]
  · cases h; simp [Termite.emit]
  · simp only [Option.some.injEq] at h
    subst h
    have := eraseMidiLearn_nan s sel q
    by_cases hq : q = sel
    · subst hq
      simpa [Termite.emit] using this
    · simpa [Termite.emit, Function.update_noteq hq] using this
  · cases h; simp

/-- What the chain leaves alone: the registry, `current_control_` and `pitch_bend_`. -/
theorem midiDispatch_frame (s s2 : Termite) (sel : Ptr) (p i v : Int)
    (h : midiDispatch s sel p i v = some s2) :
    s2.controls_ = s.controls_ ∧ s2.current_control_ = s.current_control_ ∧
    s2.pitch_bend_ = s.pitch_bend_ := by
  unfold midiDispatch at h
  split_ifs at h with h1 h2 h3 h4 h5
  · cases h; exact ⟨rfl, rfl, rfl⟩
  · cases hp : s.pitch_bend_ with
    | none => simp [hp] at h
    | some pb => simp [hp] at h; subst h; simp [Termite.emit, hp]
  · cases h; exact ⟨rfl, rfl, rfl⟩
  · cases h; exact ⟨rfl, rfl, rfl⟩
  · simp only [Option.some.injEq] at h
    subst h
    have hf := eraseMidiLearn_frame s sel
    exact ⟨hf.1, hf.2.2.2.2.1, hf.2.2.2.2.2⟩
  · cases h; exact ⟨rfl, rfl, rfl⟩

theorem midiApplyLearn_none (s : Termite) (sel : Ptr) (i v : Int)
    (h : s.midi_learn_ i = none) : midiApplyLearn s sel i v = s := by
  simp [midiApplyLearn, h]

theorem midiApplyLearn_some (s : Termite) (sel : Ptr) (i v : Int) (c : Ptr)
    (h : s.midi_learn_ i = some c) :
    midiApplyLearn s sel i v =
      Termite.emit
        { s with heap := Function.update s.heap c
                  { s.heap c with
                    current_value := midiLearnValue (s.heap c) v
                    nan := decide ((s.heap c).resolution = 0) } }
        [pushValue { s.heap c with
            current_value := midiLearnValue (s.heap c) v
            nan := decide ((s.heap c).resolution = 0) },
         Action.drawControl c (decide (sel = c)),
         Action.drawControlStatus c false] := by
  simp [midiApplyLearn, h]

theorem midiApplyLearn_frame (s : Termite) (sel : Ptr) (i v : Int) :
    (midiApplyLearn s sel i v).midi_learn_ = s.midi_learn_ ∧
    (midiApplyLearn s sel i v).state_ = s.state_ := by
  cases h : s.midi_learn_ i with
  | none => rw [midiApplyLearn_none s sel i v h]; exact ⟨rfl, rfl⟩
  | some c => rw [midiApplyLearn_some s sel i v c h]; exact ⟨rfl, rfl⟩

theorem CLAMP_mem_range (v lo hi : ℚ) (h : lo ≤ hi) :
    lo ≤ CLAMP v lo hi ∧ CLAMP v lo hi ≤ hi := by
  unfold CLAMP
  split_ifs with h1 h2
  · exact ⟨le_refl _, h⟩
  · exact ⟨h, le_refl _⟩
  · exact ⟨not_lt.mp h1, not_lt.mp h2⟩

theorem CLAMP_of_mem_range (v lo hi : ℚ) (h1 : lo ≤ v) (h2 : v ≤ hi) : CLAMP v lo hi = v := by
  unfold CLAMP
  rw [if_neg (not_lt.mpr h1), if_neg (not_lt.mpr h2)]

theorem keyStep_fields (c : Control) (up : Bool) :
    (keyStep c up).value = c.value ∧ (keyStep c up).min = c.min ∧
    (keyStep c up).max = c.max ∧ (keyStep c up).resolution = c.resolution ∧
    (keyStep c up).midi_learn = c.midi_learn := by
  unfold keyStep
  split_ifs <;> exact ⟨rfl, rfl, rfl, rfl, rfl⟩

theorem keyStep_of_ne_zero (c : Control) (up : Bool) (h : c.resolution ≠ 0) :
    (keyStep c up).current_value =
      (if up then c.current_value + (c.max - c.min) / (c.resolution : ℚ)
       else c.current_value - (c.max - c.min) / (c.resolution : ℚ)) ∧
    (keyStep c up).nan = c.nan := by
  unfold keyStep
  rw [if_pos h]
  split_ifs <;> exact ⟨rfl, rfl⟩

/-- What the `switch` of `textInput` leaves alone: the registry, the bounds and sinks of
all controls, and the value of every control but the one it was called on. -/
theorem textInputSwitch_frame (s : Termite) (cur : String) (control : Ptr) (key : Int) :
    (textInputSwitch s cur control key).1.controls_ = s.controls_ ∧
    (∀ q, ((textInputSwitch s cur control key).1.heap q).value = (s.heap q).value ∧
      ((textInputSwitch s cur control key).1.heap q).min = (s.heap q).min ∧
      ((textInputSwitch s cur control key).1.heap q).max = (s.heap q).max ∧
      ((textInputSwitch s cur control key).1.heap q).resolution = (s.heap q).resolution ∧
      (q ≠ control →
        ((textInputSwitch s cur control key).1.heap q).current_value =
          (s.heap q).current_value)) := by
  unfold textInputSwitch
  split_ifs with h1 h2 h3 h4 h5 h6
  · simp [Termite.emit]
    split_ifs <;> simp
  · refine ⟨by simp [Termite.emit, (eraseMidiLearn_frame _ _).1], fun q => ?_⟩
    have := eraseMidiLearn_heap (s.emit [Action.lock]) control q
    simp only [Termite.emit] at this ⊢
    exact ⟨this.1, this.2.1, this.2.2.1, this.2.2.2.1, fun _ => this.2.2.2.2⟩
  · simp [Termite.emit]
  · simp [Termite.emit]
  · refine ⟨rfl, fun q => ?_⟩
    obtain ⟨k1, k2, k3, k4, _⟩ := keyStep_fields (s.heap control) true
    by_cases hq : q = control
    · subst hq; simp [k1, k2, k3, k4]
    · simp [Function.update_noteq hq]
  · refine ⟨rfl, fun q => ?_⟩
    obtain ⟨k1, k2, k3, k4, _⟩ := keyStep_fields (s.heap control) false
    by_cases hq : q = control
    · subst hq; simp [k1, k2, k3, k4]
    · simp [Function.update_noteq hq]
  · simp [Termite.emit]

/-- The `switch` of `textInput` leaves the NaN flags alone when the control it is called
on has a `resolution` other than `0`. -/
theorem textInputSwitch_nan (s : Termite) (cur : String) (control : Ptr) (key : Int)
    (hR : (s.heap control).resolution ≠ 0) (q : Ptr) :
    ((textInputSwitch s cur control key).1.heap q).nan = (s.heap q).nan := by
  unfold textInputSwitch
  split_ifs with h1 h2 h3 h4 h5 h6
  · simp only [Termite.emit]
    split_ifs <;> rfl
  · simpa [Termite.emit] using eraseMidiLearn_nan (s.emit [Action.lock]) control q
  · rfl
  · rfl
  · by_cases hq : q = control
    · subst hq; simp [(keyStep_of_ne_zero _ true hR).2]
    · simp [Function.update_noteq hq]
  · by_cases hq : q = control
    · subst hq; simp [(keyStep_of_ne_zero _ false hR).2]
    · simp [Function.update_noteq hq]
  · rfl

theorem getD_mem_of_lt (l : List String) (i : Nat) (h : i < l.length) : l.getD i "" ∈ l := by
  rw [List.getD_eq_getElem l "" h]
  exact List.getElem_mem h

theorem getCurrentControl_mem (g : TermiteGui) (h : g.current < g.order.length) :
    g.getCurrentControl ∈ g.order :=
  getD_mem_of_lt _ _ h

theorem getNextControl_spec (g : TermiteGui) (h : g.current < g.order.length) :
    g.getNextControl.1 = g.getNextControl.2.getCurrentControl ∧
    g.getNextControl.2.order = g.order ∧
    g.getNextControl.2.current < g.order.length ∧ g.getNextControl.1 ∈ g.order := by
  have hpos : 0 < g.order.length := lt_of_le_of_lt (Nat.zero_le _) h
  have hlt : (g.current + 1) % g.order.length < g.order.length := Nat.mod_lt _ hpos
  exact ⟨rfl, rfl, hlt, getD_mem_of_lt _ _ hlt⟩

theorem getPrevControl_spec (g : TermiteGui) (h : g.current < g.order.length) :
    g.getPrevControl.1 = g.getPrevControl.2.getCurrentControl ∧
    g.getPrevControl.2.order = g.order ∧
    g.getPrevControl.2.current < g.order.length ∧ g.getPrevControl.1 ∈ g.order := by
  have hpos : 0 < g.order.length := lt_of_le_of_lt (Nat.zero_le _) h
  have hlt : (g.current + g.order.length - 1) % g.order.length < g.order.length :=
    Nat.mod_lt _ hpos
  exact ⟨rfl, rfl, hlt, getD_mem_of_lt _ _ hlt⟩

/-- The name the `switch` of `textInput` yields is the selected name of the display it
leaves, that display is well formed, and a control whose value the `switch` changes is
the one that stays selected. -/
theorem textInputSwitch_selection (s : Termite) (control : Ptr) (key : Int)
    (h : s.gui_.current < s.gui_.order.length) :
    (textInputSwitch s s.gui_.getCurrentControl control key).2 =
      (textInputSwitch s s.gui_.getCurrentControl control key).1.gui_.getCurrentControl ∧
    (textInputSwitch s s.gui_.getCurrentControl control key).1.gui_.order = s.gui_.order ∧
    (textInputSwitch s s.gui_.getCurrentControl control key).1.gui_.current <
      s.gui_.order.length ∧
    (∀ q, ((textInputSwitch s s.gui_.getCurrentControl control key).1.heap q).current_value =
        (s.heap q).current_value ∨
      (q = control ∧
        (textInputSwitch s s.gui_.getCurrentControl control key).2 =
          s.gui_.getCurrentControl)) := by
  unfold textInputSwitch
  split_ifs with h1 h2 h3 h4 h5 h6
  · refine ⟨?_, ?_, ?_, fun q => Or.inl ?_⟩ <;> simp only [Termite.emit] <;>
      split_ifs <;> first | rfl | exact h
  · have hg' := (eraseMidiLearn_frame (s.emit [Action.lock]) control).2.1
    simp only [Termite.emit] at hg'
    refine ⟨?_, ?_, ?_, fun q => Or.inl ?_⟩
    · simp only [Termite.emit, hg']
    · simp only [Termite.emit, hg']
    · simp only [Termite.emit, hg']; exact h
    · simpa [Termite.emit] using (eraseMidiLearn_heap (s.emit [Action.lock]) control q).2.2.2.2
  · obtain ⟨e1, e2, e3, _⟩ := getPrevControl_spec s.gui_ h
    exact ⟨e1, e2, e3, fun q => Or.inl rfl⟩
  · obtain ⟨e1, e2, e3, _⟩ := getNextControl_spec s.gui_ h
    exact ⟨e1, e2, e3, fun q => Or.inl rfl⟩
  · refine ⟨rfl, rfl, h, fun q => ?_⟩
    by_cases hq : q = control
    · exact Or.inr ⟨hq, rfl⟩
    · left; simp [Function.update_noteq hq]
  · refine ⟨rfl, rfl, h, fun q => ?_⟩
    by_cases hq : q = control
    · exact Or.inr ⟨hq, rfl⟩
    · left; simp [Function.update_noteq hq]
  · exact ⟨rfl, rfl, h, fun q => Or.inl rfl⟩

/-- Under `GuiInv` both lookups of `textInput` succeed, and the call returns `true`. -/
theorem textInput_eq (s : Termite) (key : Int) (hkey : key ≠ KEY_F 1) (hg : GuiInv s) :
    ∃ control control1,
      s.controls_ s.gui_.getCurrentControl = some control ∧
      s.controls_ (textInputSwitch s s.gui_.getCurrentControl control key).2 = some control1 ∧
      textInput s key = some
        (textInputFinish (textInputSwitch s s.gui_.getCurrentControl control key).1 control1,
          true) := by
  obtain ⟨control, hc⟩ := hg.2 _ (getCurrentControl_mem s.gui_ hg.1)
  obtain ⟨e1, e2, e3, _⟩ := textInputSwitch_selection s control key hg.1
  have hmem : (textInputSwitch s s.gui_.getCurrentControl control key).2 ∈ s.gui_.order := by
    rw [e1, ← e2]
    exact getCurrentControl_mem _ (by rw [e2]; exact e3)
  obtain ⟨control1, hc1⟩ := hg.2 _ hmem
  refine ⟨control, control1, hc, hc1, ?_⟩
  have hc1b : (textInputSwitch s s.gui_.getCurrentControl control key).1.controls_
      (textInputSwitch s s.gui_.getCurrentControl control key).2 = some control1 := by
    rw [(textInputSwitch_frame s _ control key).1]; exact hc1
  simp only [textInput, if_neg hkey, hc, hc1b]

theorem GuiInv_st0 : GuiInv st0 := by
  refine ⟨by decide, ?_⟩
  intro n hn
  simp [st0] at hn ⊢
  rcases hn with rfl | rfl <;> simp

theorem RangeInv_st1 : RangeInv st1 := by
  intro p
  simp [st1, st0, knob]

/-- C1: the controller path does not clamp. In the state `st1` every control has the
range `[0, 1]`, one step and the value `0`, and the control at address `1` is bound to the
controller id `1`; the controller message `176 1 255` gives it the value
`0 + 2 · (1 − 0) / 1 = 2`, above its `max`, and pushes `2` to its sink. -/
theorem processMidi_value_above_max :
    RangeInv st1 ∧
    ∃ s1, processMidi st1 [byte 176, byte 1, byte 255] = some s1 ∧
      (s1.heap 1).max = 1 ∧ (s1.heap 1).current_value = 2 ∧ (s1.heap 1).nan = false ∧
      s1.trace = [Action.lock, Action.valueSet 7 2, Action.drawControl 1 true,
        Action.drawControlStatus 1 false, Action.unlock] := by
  refine ⟨RangeInv_st1, _, rfl, ?_, ?_, ?_, ?_⟩ <;>
  norm_num [processMidi, midiNoteEvent, midiDispatch, midiApplyLearn, midiLearnValue,
      eraseMidiLearn, st1, st0, knob, byte, Termite.emit, toInt, MIDI_SIZE, PITCH_BEND_PORT,
      SUSTAIN_PORT, SUSTAIN_ID, INT_MIN, INT_MAX, pushValue]

/-- C2, counterexample: a control with `min = max = 0`, the value `0` and
`resolution = 0` satisfies `min ≤ max` and `min ≤ current_value ≤ max`; the right key
adds the step `(0 − 0) / 0`, a NaN, which the clamp keeps, so that afterwards the value
of the selected control is a NaN, and the NaN is pushed to its sink. -/
theorem textInput_range_counterexample :
    BoundsInv { st0 with heap := fun _ => { knob with max := 0, resolution := 0 } } ∧
    ∃ s1, textInput { st0 with heap := fun _ => { knob with max := 0, resolution := 0 } }
        KEY_RIGHT = some (s1, true) ∧
      s1.controls_ s1.gui_.getCurrentControl = some 1 ∧ (s1.heap 1).nan = true ∧
      s1.trace = [Action.valueSetNaN 7, Action.drawControl 1 true,
        Action.drawControlStatus 1 false] := by
  refine ⟨fun p => by simp [st0, knob], _, rfl, ?_, ?_, ?_⟩
  · decide
  · norm_num [textInputFinish, textInputSwitch, keyStep, TermiteGui.getCurrentControl,
      Termite.emit, st0, knob, KEY_RIGHT, KEY_m, KEY_c, KEY_UP, KEY_DOWN]
  · norm_num [textInputFinish, textInputSwitch, keyStep, TermiteGui.getCurrentControl,
      Termite.emit, st0, knob, KEY_RIGHT, KEY_m, KEY_c, KEY_UP, KEY_DOWN, pushValue]
    decide

/-- C2 (amended): the keyboard path keeps every control in range when every `resolution`
is positive. For every key other than the exit key and every state in which every
control has `min ≤ max`, `resolution > 0` and a value in range (and the display is well
formed), `textInput` returns `true`, every control is still in range, and the last
actions are the push of the selected control's value, which is its clamped
`current_value`, to its sink and the two redraws. -/
theorem textInput_range_invariant (s : Termite) (key : Int) (hkey : key ≠ KEY_F 1)
    (hg : GuiInv s) (hinv : RangeInv s) :
    ∃ s1 sel, textInput s key = some (s1, true) ∧ RangeInv s1 ∧
      s1.controls_ s1.gui_.getCurrentControl = some sel ∧
      (s1.heap sel).current_value =
        CLAMP (s1.heap sel).current_value (s1.heap sel).min (s1.heap sel).max ∧
      ∃ pre, s1.trace = pre ++
        [Action.valueSet (s1.heap sel).value (s1.heap sel).current_value,
         Action.drawControl sel true,
         Action.drawControlStatus sel (decide (s1.state_ = InputState.MIDI_LEARN))] := by
  obtain ⟨control, control1, hc, hc1, heq⟩ := textInput_eq s key hkey hg
  obtain ⟨e1, _, _, hval⟩ := textInputSwitch_selection s control key hg.1
  obtain ⟨f1, f2⟩ := textInputSwitch_frame s s.gui_.getCurrentControl control key
  have hnan := textInputSwitch_nan s s.gui_.getCurrentControl control key
    (ne_of_gt (hinv control).2.1)
  have hsame : ∀ q, q ≠ control1 →
      ((textInputSwitch s s.gui_.getCurrentControl control key).1.heap q).current_value =
        (s.heap q).current_value := by
    intro q hq
    rcases hval q with h | ⟨h, h'⟩
    · exact h
    · exfalso
      rw [h'] at hc1
      rw [hc] at hc1
      exact hq (h.trans (Option.some.inj hc1))
  have hb : RangeInv
      (textInputFinish (textInputSwitch s s.gui_.getCurrentControl control key).1 control1) := by
    intro q
    obtain ⟨_, g2, g3, g4, _⟩ := f2 q
    obtain ⟨i1, i2, i3, i4, i5⟩ := hinv q
    by_cases hq : q = control1
    · subst hq
      have := CLAMP_mem_range
        ((textInputSwitch s s.gui_.getCurrentControl control key).1.heap q).current_value
        (s.heap q).min (s.heap q).max i1
      simpa [textInputFinish, Termite.emit, g2, g3, g4, hnan q] using ⟨i1, i2, i3, this⟩
    · simpa [textInputFinish, Termite.emit, Function.update_noteq hq, g2, g3, g4, hnan q,
        hsame q hq] using hinv q
  have hn1 : ((textInputSwitch s s.gui_.getCurrentControl control key).1.heap control1).nan =
      false := by rw [hnan control1]; exact (hinv control1).2.2.1
  refine ⟨_, control1, heq, hb, ?_, ?_, ?_⟩
  · simp only [textInputFinish, Termite.emit, f1, ← e1]
    exact hc1
  · have := hb control1
    exact (CLAMP_of_mem_range _ _ _ this.2.2.2.1 this.2.2.2.2).symm
  · exact ⟨(textInputSwitch s s.gui_.getCurrentControl control key).1.trace, by
      simp [textInputFinish, Termite.emit, pushValue, hn1]⟩

/-- C2, witness: the right key on the state `st0`. -/
theorem textInput_range_invariant_witness :
    ∃ s1 sel, textInput st0 KEY_RIGHT = some (s1, true) ∧ RangeInv s1 ∧
      s1.controls_ s1.gui_.getCurrentControl = some sel :=
  (textInput_range_invariant st0 KEY_RIGHT (by decide) GuiInv_st0
    (fun _ => by simp [st0, knob])).imp fun _ h => h.imp fun _ h => ⟨h.1, h.2.1, h.2.2.1⟩

/-- C3: the reverse map does not stay consistent. From the state `st0`, with an empty
reverse map and no stored binding, the toggle key, the controller message `176 0 0`, the
toggle key and the controller message `176 5 0` leave the entry `0 ↦ 1` in the reverse
map while the control at address `1` stores the id `5`. -/
theorem run_binding_inconsistent :
    (∀ k, st0.midi_learn_ k = none) ∧ (∀ p, (st0.heap p).midi_learn = 0) ∧
    ∃ s, run st0 [Call.key KEY_m, Call.midi [byte 176, byte 0, byte 0], Call.key KEY_m,
        Call.midi [byte 176, byte 5, byte 0]] = some s ∧
      s.midi_learn_ 0 = some 1 ∧ s.midi_learn_ 5 = some 1 ∧ (s.heap 1).midi_learn = 5 := by
  refine ⟨fun _ => rfl, fun _ => rfl, _, rfl, ?_, ?_, ?_⟩ <;> decide

theorem midiApplyLearn_others (s : Termite) (sel : Ptr) (i v : Int) :
    (midiApplyLearn s sel i v).controls_ = s.controls_ ∧
    (midiApplyLearn s sel i v).gui_ = s.gui_ ∧
    (midiApplyLearn s sel i v).current_control_ = s.current_control_ ∧
    (midiApplyLearn s sel i v).pitch_bend_ = s.pitch_bend_ ∧
    (∀ q, ((midiApplyLearn s sel i v).heap q).midi_learn = (s.heap q).midi_learn) := by
  cases h : s.midi_learn_ i with
  | none => rw [midiApplyLearn_none s sel i v h]; exact ⟨rfl, rfl, rfl, rfl, fun _ => rfl⟩
  | some c =>
    rw [midiApplyLearn_some s sel i v c h]
    refine ⟨rfl, rfl, rfl, rfl, fun q => ?_⟩
    by_cases hq : q = c
    · subst hq; simp [Termite.emit]
    · simp [Termite.emit, Function.update_noteq hq]

theorem midiApplyLearn_value (s : Termite) (sel : Ptr) (i v : Int) (c : Ptr)
    (h : s.midi_learn_ i = some c) :
    ((midiApplyLearn s sel i v).heap c).current_value = midiLearnValue (s.heap c) v ∧
    ((midiApplyLearn s sel i v).heap c).nan = decide ((s.heap c).resolution = 0) ∧
    (midiApplyLearn s sel i v).trace = s.trace ++
      [pushValue { s.heap c with
          current_value := midiLearnValue (s.heap c) v
          nan := decide ((s.heap c).resolution = 0) },
       Action.drawControl c (decide (sel = c)), Action.drawControlStatus c false] := by
  rw [midiApplyLearn_some s sel i v c h]
  simp [Termite.emit]

theorem midiLearnValue_congr (c d : Control) (v : Int) (h1 : c.min = d.min)
    (h2 : c.max = d.max) (h3 : c.resolution = d.resolution) :
    midiLearnValue c v = midiLearnValue d v := by
  simp only [midiLearnValue, h1, h2, h3]

/-- The learn branch of the chain. -/
theorem midiDispatch_learn (s : Termite) (sel : Ptr) (p i v : Int)
    (hst : s.state_ = InputState.MIDI_LEARN)
    (h1 : ¬ (128 ≤ p ∧ p < 144)) (h2 : p ≠ PITCH_BEND_PORT)
    (h3 : ¬ (p = SUSTAIN_PORT ∧ i = SUSTAIN_ID)) (h4 : p < 254) :
    ∃ s2, midiDispatch s sel p i v = some s2 ∧
      s2.midi_learn_ i = some sel ∧ (s2.heap sel).midi_learn = i ∧
      s2.state_ = InputState.STANDARD ∧ s2.controls_ = s.controls_ ∧ s2.gui_ = s.gui_ ∧
      s2.current_control_ = s.current_control_ := by
  have hf := eraseMidiLearn_frame s sel
  simp only [midiDispatch, if_neg h1, if_neg h2, if_neg h3, hst, h4, and_self, if_true]
  refine ⟨_, rfl, ?_, ?_, ?_, ?_, ?_, ?_⟩
  · simp [Termite.emit]
  · simp [Termite.emit]
  · simp [Termite.emit]
  · simp only [Termite.emit]; exact hf.1
  · simp only [Termite.emit]; exact hf.2.1
  · simp only [Termite.emit]; exact hf.2.2.2.2.1

/-- The learn step of `processMidi`: in `MIDI_LEARN` mode a message that no earlier
branch of the chain takes binds the control named by `current_control_`. -/
theorem processMidi_learn (s : Termite) (b0 b1 b2 : Fin 256) (rest : List (Fin 256))
    (sel : Ptr) (hsel : s.controls_ s.current_control_ = some sel)
    (hst : s.state_ = InputState.MIDI_LEARN)
    (h1 : ¬ (128 ≤ (b0.val : Int) ∧ (b0.val : Int) < 144))
    (h2 : (b0.val : Int) ≠ PITCH_BEND_PORT)
    (h3 : ¬ ((b0.val : Int) = SUSTAIN_PORT ∧ (b1.val : Int) = SUSTAIN_ID))
    (h4 : (b0.val : Int) < 254) :
    ∃ s1, processMidi s (b0 :: b1 :: b2 :: rest) = some s1 ∧
      s1.midi_learn_ (b1.val : Int) = some sel ∧
      (s1.heap sel).midi_learn = (b1.val : Int) ∧
      s1.state_ = InputState.STANDARD ∧
      (s1.heap sel).current_value = midiLearnValue (s.heap sel) (b2.val : Int) ∧
      s1.controls_ = s.controls_ ∧ s1.gui_ = s.gui_ ∧
      s1.current_control_ = s.current_control_ := by
  obtain ⟨n1, n2, n3, n4, n5, n6, n7⟩ :=
    midiNoteEvent_frame (s.emit [Action.lock]) b0.val b1.val b2.val
  obtain ⟨s2, hs2, m1, m2, m3, m4, m5, m6⟩ := midiDispatch_learn
    (midiNoteEvent (s.emit [Action.lock]) b0.val b1.val b2.val) sel b0.val b1.val b2.val
    (by rw [n3]; exact hst) h1 h2 h3 h4
  obtain ⟨d1, d2, d3, d4, d5⟩ := midiDispatch_heap _ _ _ _ _ _ hs2 sel
  rw [n1] at d2 d3 d4
  obtain ⟨a1, a2, a3, a4, a5⟩ := midiApplyLearn_others s2 sel b1.val b2.val
  obtain ⟨a6, a7⟩ := midiApplyLearn_frame s2 sel b1.val b2.val
  refine ⟨(midiApplyLearn s2 sel b1.val b2.val).emit [Action.unlock],
    by rw [processMidi_cons, hsel]; simp only [hs2], ?_, ?_, ?_, ?_, ?_, ?_, ?_⟩
  · show (midiApplyLearn s2 sel b1.val b2.val).midi_learn_ _ = _
    rw [a6]; exact m1
  · show ((midiApplyLearn s2 sel b1.val b2.val).heap sel).midi_learn = _
    rw [a5]; exact m2
  · show (midiApplyLearn s2 sel b1.val b2.val).state_ = _
    rw [a7]; exact m3
  · show ((midiApplyLearn s2 sel b1.val b2.val).heap sel).current_value = _
    rw [(midiApplyLearn_value s2 sel _ _ sel m1).1]
    exact midiLearnValue_congr _ _ _ d2 d3 d4
  · show (midiApplyLearn s2 sel b1.val b2.val).controls_ = _
    rw [a1, m4, n5]; rfl
  · show (midiApplyLearn s2 sel b1.val b2.val).gui_ = _
    rw [a2, m5, n7]; rfl
  · show (midiApplyLearn s2 sel b1.val b2.val).current_control_ = _
    rw [a3, m6, n6]; rfl

theorem eraseMidiLearn_binding (s : Termite) (c : Ptr) :
    ((eraseMidiLearn s c).heap c).midi_learn = 0 ∧
    (∀ q, q ≠ c → ((eraseMidiLearn s c).heap q).midi_learn = (s.heap q).midi_learn) ∧
    ((s.heap c).midi_learn ≠ 0 →
      (eraseMidiLearn s c).midi_learn_ ((s.heap c).midi_learn) = none) ∧
    (∀ k, k ≠ (s.heap c).midi_learn → (eraseMidiLearn s c).midi_learn_ k = s.midi_learn_ k) ∧
    ((s.heap c).midi_learn = 0 → (eraseMidiLearn s c).midi_learn_ = s.midi_learn_) := by
  unfold eraseMidiLearn
  split_ifs with h
  · refine ⟨by simp, fun q hq => by simp [Function.update_noteq hq], fun _ => by simp,
      fun k hk => by simp [Function.update_noteq hk], fun h0 => absurd h0 h⟩
  · have h0 : (s.heap c).midi_learn = 0 := not_not.mp h
    exact ⟨h0, fun _ _ => rfl, fun hn => absurd h0 hn, fun _ _ => rfl, fun _ => rfl⟩

/-- The toggle key. -/
theorem textInput_toggle (s : Termite) (A : Ptr)
    (hA : s.controls_ s.gui_.getCurrentControl = some A) :
    ∃ s1, textInput s KEY_m = some (s1, true) ∧
      s1.state_ = (if s.state_ ≠ InputState.MIDI_LEARN then InputState.MIDI_LEARN
        else InputState.STANDARD) ∧
      s1.controls_ = s.controls_ ∧ s1.gui_ = s.gui_ ∧
      s1.current_control_ = s.current_control_ ∧ s1.midi_learn_ = s.midi_learn_ ∧
      ∀ q, (s1.heap q).midi_learn = (s.heap q).midi_learn := by
  have hk : KEY_m ≠ KEY_F 1 := by decide
  simp only [textInput, if_neg hk, hA, textInputSwitch, if_true, Termite.emit]
  by_cases hs : s.state_ = InputState.MIDI_LEARN
  · simp only [hs, ne_eq, not_true_eq_false, if_false, hA]
    refine ⟨_, rfl, rfl, rfl, rfl, rfl, rfl, fun q => ?_⟩
    by_cases hq : q = A
    · subst hq; simp [textInputFinish, Termite.emit]
    · simp [textInputFinish, Termite.emit, Function.update_noteq hq]
  · simp only [hs, ne_eq, not_false_eq_true, if_true, hA]
    refine ⟨_, rfl, rfl, rfl, rfl, rfl, rfl, fun q => ?_⟩
    by_cases hq : q = A
    · subst hq; simp [textInputFinish, Termite.emit]
    · simp [textInputFinish, Termite.emit, Function.update_noteq hq]

/-- The clear key. -/
theorem textInput_clear (s : Termite) (A : Ptr)
    (hA : s.controls_ s.gui_.getCurrentControl = some A) :
    ∃ s1, textInput s KEY_c = some (s1, true) ∧
      s1.state_ = InputState.STANDARD ∧ (s1.heap A).midi_learn = 0 ∧
      ((s.heap A).midi_learn ≠ 0 → s1.midi_learn_ ((s.heap A).midi_learn) = none) ∧
      (∀ k, k ≠ (s.heap A).midi_learn → s1.midi_learn_ k = s.midi_learn_ k) ∧
      ((s.heap A).midi_learn = 0 → s1.midi_learn_ = s.midi_learn_) ∧
      (∀ q, q ≠ A → (s1.heap q).midi_learn = (s.heap q).midi_learn) := by
  have hk : KEY_c ≠ KEY_F 1 := by decide
  have hk2 : KEY_c ≠ KEY_m := by decide
  obtain ⟨b1, b2, b3, b4, b5⟩ := eraseMidiLearn_binding (s.emit [Action.lock]) A
  have hc := (eraseMidiLearn_frame (s.emit [Action.lock]) A).1
  simp only [Termite.emit] at b1 b2 b3 b4 b5 hc
  simp only [textInput, if_neg hk, hA, textInputSwitch, if_neg hk2, if_true, Termite.emit, hc]
  refine ⟨_, rfl, rfl, ?_, b3, b4, b5, fun q hq => ?_⟩
  · simpa [textInputFinish, Termite.emit] using b1
  · simpa [textInputFinish, Termite.emit, Function.update_noteq hq] using b2 q hq

/-- C4: binding a second controller id does not always remove the first. The control at
address `1` holds the binding `K1 = 0` (the reverse map has `0 ↦ 1`, its stored id is
`0`); in `MIDI_LEARN` mode the controller message `176 5 0` binds `K2 = 5` to it, and
afterwards the reverse map has both `0 ↦ 1` and `5 ↦ 1`. -/
theorem processMidi_rebind_keeps_entry :
    ∃ s1, processMidi
        { st0 with
          midi_learn_ := fun k => if k = 0 then some 1 else none
          state_ := InputState.MIDI_LEARN }
        [byte 176, byte 5, byte 0] = some s1 ∧
      s1.midi_learn_ 0 = some 1 ∧ s1.midi_learn_ 5 = some 1 ∧ (s1.heap 1).midi_learn = 5 := by
  refine ⟨_, rfl, ?_, ?_, ?_⟩ <;> decide

/-- C5, counterexample: on the state `st0` with the navigation order `"x"`, `""`, the
toggle key, then the down key, which selects the control `""` at address `1`, then the
controller message `176 5 0` bind nothing: the down key has set the mode back to
`STANDARD`. -/
theorem learn_after_navigation_counterexample :
    ∃ s, run { st0 with gui_ := { order := ["x", ""], current := 0 } }
        [Call.key KEY_m, Call.key KEY_DOWN, Call.midi [byte 176, byte 5, byte 0]] = some s ∧
      s.controls_ s.gui_.getCurrentControl = some 1 ∧
      s.controls_ s.current_control_ = some 1 ∧
      s.midi_learn_ 5 = none ∧ (s.heap 1).midi_learn = 0 := by
  refine ⟨_, rfl, ?_, ?_, ?_, ?_⟩ <;> decide

/-- C5 (amended): with the control `A` already selected, for the keyboard and for
`processMidi`, and the mode `STANDARD`, the toggle key enters `MIDI_LEARN`, a controller
message with status `176` and `data1 = K`, `K ≠ 64`, then binds `A` to `K` (reverse map
`K ↦ A`, stored id `K`) and sets the mode to `STANDARD`, and a following clear key
clears the stored id of `A` and, when `K ≠ 0`, removes `K` from the reverse map. -/
theorem learn_bind_then_clear (s : Termite) (A : Ptr) (K d2 : Fin 256)
    (hgui : s.controls_ s.gui_.getCurrentControl = some A)
    (hmidi : s.controls_ s.current_control_ = some A)
    (hst : s.state_ = InputState.STANDARD) (hK : K.val ≠ 64) :
    ∃ s1 s2 s3, textInput s KEY_m = some (s1, true) ∧ s1.state_ = InputState.MIDI_LEARN ∧
      processMidi s1 [byte 176, K, d2] = some s2 ∧
      s2.midi_learn_ (K.val : Int) = some A ∧ (s2.heap A).midi_learn = (K.val : Int) ∧
      s2.state_ = InputState.STANDARD ∧
      textInput s2 KEY_c = some (s3, true) ∧
      (K.val ≠ 0 → s3.midi_learn_ (K.val : Int) = none) ∧
      (s3.heap A).midi_learn = 0 ∧ s3.state_ = InputState.STANDARD := by
  obtain ⟨s1, e1, t1, t2, t3, t4, _, _⟩ := textInput_toggle s A hgui
  have hs1 : s1.state_ = InputState.MIDI_LEARN := by rw [t1, hst]; rfl
  have hK' : ¬ (((byte 176).val : Int) = SUSTAIN_PORT ∧ (K.val : Int) = SUSTAIN_ID) := by
    rintro ⟨_, h⟩
    simp only [SUSTAIN_ID] at h
    exact hK (by exact_mod_cast h)
  obtain ⟨s2, e2, m1, m2, m3, _, m5, m6, _⟩ := processMidi_learn s1 (byte 176) K d2 [] A
    (by rw [t2, t4]; exact hmidi) hs1 (by decide) (by decide) hK' (by decide)
  obtain ⟨s3, e3, c1, c2, c3, _, _, _⟩ := textInput_clear s2 A
    (by rw [m5, m6, t2, t3]; exact hgui)
  refine ⟨s1, s2, s3, e1, hs1, e2, m1, m2, m3, e3, fun h0 => ?_, c2, c1⟩
  have := c3 (by rw [m2]; exact_mod_cast h0)
  rwa [m2] at this

/-- C5, witness: the state `st0`, its control at address `1`, the controller id `5`. -/
theorem learn_bind_then_clear_witness :
    ∃ s1 s2 s3, textInput st0 KEY_m = some (s1, true) ∧ s1.state_ = InputState.MIDI_LEARN ∧
      processMidi s1 [byte 176, byte 5, byte 0] = some s2 ∧
      s2.midi_learn_ 5 = some 1 ∧ (s2.heap 1).midi_learn = 5 ∧
      s2.state_ = InputState.STANDARD ∧
      textInput s2 KEY_c = some (s3, true) ∧
      ((byte 5).val ≠ 0 → s3.midi_learn_ 5 = none) ∧
      (s3.heap 1).midi_learn = 0 ∧ s3.state_ = InputState.STANDARD :=
  learn_bind_then_clear st0 1 (byte 5) (byte 0) rfl rfl rfl (by decide)

/-- C6: the learn step does not follow the keyboard selection. From `st0` the down key
selects the control `"x"` at address `2` and the toggle key enters `MIDI_LEARN`; the
controller message `176 5 0` then binds the id `5` to the control at address `1`, the one
named by `current_control_`, and the selected control stays unbound. -/
theorem processMidi_binds_unselected :
    ∃ s0 s, run st0 [Call.key KEY_DOWN, Call.key KEY_m] = some s0 ∧
      s0.state_ = InputState.MIDI_LEARN ∧
      s0.controls_ s0.gui_.getCurrentControl = some 2 ∧
      processMidi s0 [byte 176, byte 5, byte 0] = some s ∧
      s.controls_ s.gui_.getCurrentControl = some 2 ∧
      s.midi_learn_ 5 = some 1 ∧ (s.heap 1).midi_learn = 5 ∧ (s.heap 2).midi_learn = 0 := by
  refine ⟨_, _, rfl, ?_, ?_, rfl, ?_, ?_, ?_, ?_⟩ <;> decide

/-- C7: a note event in `MIDI_LEARN` mode also runs the learn step. For every state in
`MIDI_LEARN` mode whose `current_control_` names a control, and every message with a
status in `[144, 160)`, `processMidi` binds `data1` to that control and sets the mode to
`STANDARD`. -/
theorem processMidi_note_event_binds (s : Termite) (b0 b1 b2 : Fin 256)
    (rest : List (Fin 256)) (sel : Ptr) (hsel : s.controls_ s.current_control_ = some sel)
    (hst : s.state_ = InputState.MIDI_LEARN) (hlo : 144 ≤ b0.val) (hhi : b0.val < 160) :
    ∃ s1, processMidi s (b0 :: b1 :: b2 :: rest) = some s1 ∧
      s1.midi_learn_ (b1.val : Int) = some sel ∧
      (s1.heap sel).midi_learn = (b1.val : Int) ∧ s1.state_ = InputState.STANDARD := by
  have h0 : (144 : Int) ≤ (b0.val : Int) := by exact_mod_cast hlo
  have h1 : (b0.val : Int) < 160 := by exact_mod_cast hhi
  obtain ⟨s1, e, m1, m2, m3, _⟩ := processMidi_learn s b0 b1 b2 rest sel hsel hst
    (by omega) (by simp only [PITCH_BEND_PORT]; omega)
    (by simp only [SUSTAIN_PORT]; omega) (by omega)
  exact ⟨s1, e, m1, m2, m3⟩

/-- C7, witness: the note-on message `144 60 100` on `st0` in `MIDI_LEARN` mode, where
nothing is bound before. -/
theorem processMidi_note_event_binds_witness :
    st0.midi_learn_ 60 = none ∧
    ∃ s1, processMidi { st0 with state_ := InputState.MIDI_LEARN }
        [byte 144, byte 60, byte 100] = some s1 ∧
      s1.midi_learn_ 60 = some 1 ∧ (s1.heap 1).midi_learn = 60 ∧
      s1.state_ = InputState.STANDARD :=
  ⟨rfl, processMidi_note_event_binds { st0 with state_ := InputState.MIDI_LEARN }
    (byte 144) (byte 60) (byte 100) [] 1 rfl rfl (by decide) (by decide)⟩

/-- When `processMidi` returns on a message of three bytes or more, the lookup of
`current_control_` and the chain succeeded, and the result is that of the controller step
followed by `unlock`. -/
theorem processMidi_inv (s s1 : Termite) (b0 b1 b2 : Fin 256) (rest : List (Fin 256))
    (h : processMidi s (b0 :: b1 :: b2 :: rest) = some s1) :
    ∃ sel s2, s.controls_ s.current_control_ = some sel ∧
      midiDispatch (midiNoteEvent (s.emit [Action.lock]) b0.val b1.val b2.val) sel
        b0.val b1.val b2.val = some s2 ∧
      s1 = (midiApplyLearn s2 sel b1.val b2.val).emit [Action.unlock] := by
  rw [processMidi_cons] at h
  cases hc : s.controls_ s.current_control_ with
  | none => simp [hc] at h
  | some sel =>
    simp only [hc] at h
    cases hd : midiDispatch (midiNoteEvent (s.emit [Action.lock]) b0.val b1.val b2.val) sel
        b0.val b1.val b2.val with
    | none => simp [hd] at h
    | some s2 =>
      simp only [hd, Option.some.injEq] at h
      exact ⟨sel, s2, rfl, hd, h.symm⟩

/-- What `processMidi` leaves alone: the registry, `current_control_` and `pitch_bend_`. -/
theorem processMidi_frame (s s1 : Termite) (message : List (Fin 256))
    (h : processMidi s message = some s1) :
    s1.controls_ = s.controls_ ∧ s1.current_control_ = s.current_control_ ∧
    s1.pitch_bend_ = s.pitch_bend_ := by
  match message, h with
  | [], h => simp [processMidi] at h; subst h; exact ⟨rfl, rfl, rfl⟩
  | [_], h => simp [processMidi] at h; subst h; exact ⟨rfl, rfl, rfl⟩
  | [_, _], h => simp [processMidi] at h; subst h; exact ⟨rfl, rfl, rfl⟩
  | b0 :: b1 :: b2 :: rest, h =>
    obtain ⟨sel, s2, _, hd, rfl⟩ := processMidi_inv s s1 b0 b1 b2 rest h
    obtain ⟨d1, d2, d3⟩ := midiDispatch_frame _ _ _ _ _ _ hd
    obtain ⟨_, _, _, n4, n5, n6, _⟩ :=
      midiNoteEvent_frame (s.emit [Action.lock]) b0.val b1.val b2.val
    obtain ⟨a1, _, a3, a4, _⟩ := midiApplyLearn_others s2 sel b1.val b2.val
    refine ⟨?_, ?_, ?_⟩
    · show (midiApplyLearn s2 sel b1.val b2.val).controls_ = _
      rw [a1, d1, n5]; rfl
    · show (midiApplyLearn s2 sel b1.val b2.val).current_control_ = _
      rw [a3, d2, n6]; rfl
    · show (midiApplyLearn s2 sel b1.val b2.val).pitch_bend_ = _
      rw [a4, d3, n4]; rfl

theorem textInputSwitch_members (s : Termite) (cur : String) (control : Ptr) (key : Int) :
    (textInputSwitch s cur control key).1.current_control_ = s.current_control_ ∧
    (textInputSwitch s cur control key).1.pitch_bend_ = s.pitch_bend_ := by
  unfold textInputSwitch
  split_ifs with h1 h2 h3 h4 h5 h6
  · simp only [Termite.emit]
    split_ifs <;> exact ⟨rfl, rfl⟩
  · have hf := eraseMidiLearn_frame (s.emit [Action.lock]) control
    exact ⟨hf.2.2.2.2.1, hf.2.2.2.2.2⟩
  · exact ⟨rfl, rfl⟩
  · exact ⟨rfl, rfl⟩
  · exact ⟨rfl, rfl⟩
  · exact ⟨rfl, rfl⟩
  · exact ⟨rfl, rfl⟩

/-- What `textInput` leaves alone: the registry, `current_control_` and `pitch_bend_`. -/
theorem textInput_frame (s s1 : Termite) (key : Int) (b : Bool)
    (h : textInput s key = some (s1, b)) :
    s1.controls_ = s.controls_ ∧ s1.current_control_ = s.current_control_ ∧
    s1.pitch_bend_ = s.pitch_bend_ := by
  unfold textInput at h
  split_ifs at h with hk
  · cases h; exact ⟨rfl, rfl, rfl⟩
  · cases hc : s.controls_ s.gui_.getCurrentControl with
    | none => simp [hc] at h
    | some control =>
      simp only [hc] at h
      cases hc1 : (textInputSwitch s s.gui_.getCurrentControl control key).1.controls_
          (textInputSwitch s s.gui_.getCurrentControl control key).2 with
      | none => simp [hc1] at h
      | some control1 =>
        simp only [hc1, Option.some.injEq, Prod.mk.injEq] at h
        obtain ⟨rfl, _⟩ := h
        obtain ⟨m1, m2⟩ := textInputSwitch_members s s.gui_.getCurrentControl control key
        exact ⟨(textInputSwitch_frame s _ control key).1, m1, m2⟩

/-- No sequence of calls changes the registry, `current_control_` or `pitch_bend_`. -/
theorem run_frame (calls : List Call) (s s1 : Termite) (h : run s calls = some s1) :
    s1.controls_ = s.controls_ ∧ s1.current_control_ = s.current_control_ ∧
    s1.pitch_bend_ = s.pitch_bend_ := by
  induction calls generalizing s with
  | nil => simp [run] at h; subst h; exact ⟨rfl, rfl, rfl⟩
  | cons c cs ih =>
    simp only [run] at h
    cases hs : step s c with
    | none => simp [hs] at h
    | some s' =>
      simp only [hs, Option.bind] at h
      obtain ⟨i1, i2, i3⟩ := ih s' h
      have hf : s'.controls_ = s.controls_ ∧ s'.current_control_ = s.current_control_ ∧
          s'.pitch_bend_ = s.pitch_bend_ := by
        cases c with
        | midi m => exact processMidi_frame s s' m hs
        | key k =>
          simp only [step] at hs
          cases ht : textInput s k with
          | none => simp [ht] at hs
          | some r =>
            simp only [ht, Option.map, Option.some.injEq] at hs
            exact textInput_frame s s' k r.2 (by rw [ht, ← hs])
      exact ⟨i1.trans hf.1, i2.trans hf.2.1, i3.trans hf.2.2⟩

theorem setupGui_pitch_bend (heap : Ptr → Control) (ctrls : List (String × Ptr))
    (s : Termite) (h : setupGui (Termite.construct heap) ctrls = some s) :
    s.pitch_bend_ = none ∧ s.current_control_ = "" ∧
    s.controls_ = fun n => ctrls.lookup n := by
  unfold setupGui at h
  simp only [Termite.construct] at h
  split at h
  · cases h
  · cases h; exact ⟨rfl, rfl, rfl⟩

/-- C9: a pitch-bend message never sets the pitch-bend value. After startup, with any
registry of the sound engine, and after any sequence of calls, `processMidi` fails on
every message with the status `224`: `pitch_bend_` is null from the constructor and
nothing assigns it, so the call throws at the lookup of `current_control_` or
dereferences the null pointer, and no value is pushed. -/
theorem processMidi_pitch_bend_fails (heap : Ptr → Control) (ctrls : List (String × Ptr))
    (calls : List Call) (b1 b2 : Fin 256) (rest : List (Fin 256)) :
    ((setupGui (Termite.construct heap) ctrls).bind (fun s0 => run s0 calls)).bind
      (fun s => processMidi s (byte 224 :: b1 :: b2 :: rest)) = none := by
  cases hs : setupGui (Termite.construct heap) ctrls with
  | none => rfl
  | some s0 =>
    simp only [Option.bind]
    cases hr : run s0 calls with
    | none => rfl
    | some s =>
      obtain ⟨hp, _, _⟩ := setupGui_pitch_bend heap ctrls s0 hs
      have hp' : s.pitch_bend_ = none := (run_frame calls s0 s hr).2.2.trans hp
      have hb : ((byte 224).val : Int) = 224 := by decide
      show processMidi s (byte 224 :: b1 :: b2 :: rest) = none
      rw [processMidi_cons]
      cases hc : s.controls_ s.current_control_ with
      | none => rfl
      | some sel =>
        simp only [hb]
        simp only [midiNoteEvent, midiDispatch, PITCH_BEND_PORT]
        norm_num [Termite.emit, hp']

/-- C10: a message of fewer than three bytes is dropped. `processMidi` returns the state
it was given: no control, binding or mode changes and no action is added to the trace,
the `lock` of the mutex included. -/
theorem processMidi_short (s : Termite) (message : List (Fin 256))
    (h : message.length < 3) : processMidi s message = some s := by
  simp [processMidi, h]

/-- C10, witness: the two-byte message `176 1` on the state `st1`. -/
theorem processMidi_short_witness : processMidi st1 [byte 176, byte 1] = some st1 :=
  processMidi_short st1 [byte 176, byte 1] (by decide)

/-- C11: `processMidi` does not return normally after startup. Whatever controls the
sound engine registers, after the constructor and `setupGui` every pitch-bend message
(status `224`) makes `processMidi` fail, at the lookup of `current_control_` or at the
null `pitch_bend_`; and with the one control `"cutoff"` registered the controller message
`176 1 0` fails at the lookup of `current_control_`, which is still the empty string. -/
theorem processMidi_after_startup_fails (heap : Ptr → Control)
    (ctrls : List (String × Ptr)) (b1 b2 : Fin 256) (rest : List (Fin 256)) :
    (setupGui (Termite.construct heap) ctrls).bind
      (fun s => processMidi s (byte 224 :: b1 :: b2 :: rest)) = none ∧
    ∃ s, setupGui (Termite.construct heap) [("cutoff", 1)] = some s ∧
      processMidi s [byte 176, byte 1, byte 0] = none := by
  constructor
  · cases hs : setupGui (Termite.construct heap) ctrls with
    | none => rfl
    | some s =>
      obtain ⟨hp, _, _⟩ := setupGui_pitch_bend heap ctrls s hs
      have hb : ((byte 224).val : Int) = 224 := by decide
      simp only [Option.bind]
      rw [processMidi_cons]
      cases hc : s.controls_ s.current_control_ with
      | none => rfl
      | some sel =>
        simp only [hb]
        simp only [midiNoteEvent, midiDispatch, PITCH_BEND_PORT]
        norm_num [Termite.emit, hp]
  · refine ⟨_, rfl, ?_⟩
    rw [processMidi_cons]
    rfl

/-- C12: a note message issues no note action after startup. When the sound engine
registers no control with the empty name, then after startup and after any sequence of
calls `processMidi` fails on every message of three bytes or more, a note-on or note-off
message included: `current_control_` is still the empty string, so the lookup at line
213 throws before the note branch is reached. -/
theorem processMidi_note_fails (heap : Ptr → Control) (ctrls : List (String × Ptr))
    (calls : List Call) (b0 b1 b2 : Fin 256) (rest : List (Fin 256))
    (hno : ctrls.lookup "" = none) :
    ((setupGui (Termite.construct heap) ctrls).bind (fun s0 => run s0 calls)).bind
      (fun s => processMidi s (b0 :: b1 :: b2 :: rest)) = none := by
  cases hs : setupGui (Termite.construct heap) ctrls with
  | none => rfl
  | some s0 =>
    simp only [Option.bind]
    cases hr : run s0 calls with
    | none => rfl
    | some s =>
      obtain ⟨_, hcur, hctl⟩ := setupGui_pitch_bend heap ctrls s0 hs
      obtain ⟨r1, r2, _⟩ := run_frame calls s0 s hr
      show processMidi s (b0 :: b1 :: b2 :: rest) = none
      rw [processMidi_cons, r1, r2, hcur, hctl]
      simp only [hno]

/-- C12, witness: with the one control `"cutoff"` registered, after startup and the
toggle key the note-on message `144 60 100` makes `processMidi` fail. -/
theorem processMidi_note_fails_witness :
    ∃ s0 s, setupGui (Termite.construct (fun _ => knob)) [("cutoff", 1)] = some s0 ∧
      run s0 [Call.key KEY_m] = some s ∧
      processMidi s [byte 144, byte 60, byte 100] = none := by
  refine ⟨_, _, rfl, rfl, ?_⟩
  have := processMidi_note_fails (fun _ => knob) [("cutoff", 1)] [Call.key KEY_m]
    (byte 144) (byte 60) (byte 100) [] rfl
  exact this

theorem keyboardNotes_of_not_mem (key : Int) (l : List Int) (i : Nat) (h : key ∉ l) :
    keyboardNotes key l i = [] := by
  induction l generalizing i with
  | nil => rfl
  | cons k ks ih =>
    have hk : k ≠ key := fun e => h (by simp [e])
    have hks : key ∉ ks := fun e => h (by simp [e])
    simp [keyboardNotes, hk, ih (i + 1) hks]

theorem keyboardNotes_at (i : Nat) (hi : i < 18) :
    (keyboardNotes (KEYBOARD.getD i 0) KEYBOARD 0).filter isNoteOn =
      [Action.noteOn (48 + (i : Int)) none] := by
  interval_cases i <;> rfl

/-- The note-on actions the `switch` of `textInput` adds are those of the loop over the
key layout. -/
theorem textInputSwitch_noteOns (s : Termite) (cur : String) (control : Ptr) (key : Int) :
    (textInputSwitch s cur control key).1.trace.filter isNoteOn =
      s.trace.filter isNoteOn ++ (keyboardNotes key KEYBOARD 0).filter isNoteOn := by
  unfold textInputSwitch
  split_ifs with h1 h2 h3 h4 h5 h6
  · subst h1
    have : keyboardNotes KEY_m KEYBOARD 0 = [] := rfl
    simp only [this, Termite.emit]
    split_ifs <;> simp [isNoteOn]
  · subst h2
    have : keyboardNotes KEY_c KEYBOARD 0 = [] := rfl
    have ht := (eraseMidiLearn_frame (s.emit [Action.lock]) control).2.2.2.1
    simp only [Termite.emit] at ht
    simp [this, Termite.emit, ht, isNoteOn]
  · subst h3
    have : keyboardNotes KEY_UP KEYBOARD 0 = [] := rfl
    simp [this, Termite.emit, isNoteOn]
  · subst h4
    have : keyboardNotes KEY_DOWN KEYBOARD 0 = [] := rfl
    simp [this, Termite.emit, isNoteOn]
  · subst h5
    have : keyboardNotes KEY_RIGHT KEYBOARD 0 = [] := rfl
    simp [this]
  · subst h6
    have : keyboardNotes KEY_LEFT KEYBOARD 0 = [] := rfl
    simp [this]
  · simp [Termite.emit]

theorem textInputFinish_noteOns (s : Termite) (control : Ptr) :
    (textInputFinish s control).trace.filter isNoteOn = s.trace.filter isNoteOn := by
  simp only [textInputFinish, Termite.emit, pushValue]
  split_ifs <;> simp [isNoteOn]

/-- C13: the note-on actions of a key. When the display is well formed, `textInput` of
the key at position `i < 18` of the layout adds exactly one note-on to the trace, at
pitch `48 + i`, and `textInput` of a key that is not in the layout adds none, whatever
the selection and the mode are. -/
theorem textInput_note_dispatch (s : Termite) (hg : GuiInv s) :
    (∀ i, i < 18 → ∃ s1, textInput s (KEYBOARD.getD i 0) = some (s1, true) ∧
      s1.trace.filter isNoteOn = s.trace.filter isNoteOn ++
        [Action.noteOn (48 + (i : Int)) none]) ∧
    (∀ key, key ∉ KEYBOARD → ∃ s1 b, textInput s key = some (s1, b) ∧
      s1.trace.filter isNoteOn = s.trace.filter isNoteOn) := by
  constructor
  · intro i hi
    have hkey : KEYBOARD.getD i 0 ≠ KEY_F 1 := by
      interval_cases i <;> decide
    obtain ⟨control, control1, _, _, e⟩ := textInput_eq s _ hkey hg
    refine ⟨_, e, ?_⟩
    rw [textInputFinish_noteOns, textInputSwitch_noteOns, keyboardNotes_at i hi]
  · intro key hkey
    by_cases hF : key = KEY_F 1
    · exact ⟨s, false, by simp [textInput, hF], rfl⟩
    · obtain ⟨control, control1, _, _, e⟩ := textInput_eq s key hF hg
      refine ⟨_, true, e, ?_⟩
      rw [textInputFinish_noteOns, textInputSwitch_noteOns,
        keyboardNotes_of_not_mem key KEYBOARD 0 hkey]
      simp

/-- C13, witness: on the state `st0` the key `w`, at position `1` of the layout, gives
one note-on at pitch `49`. -/
theorem textInput_note_dispatch_witness :
    ∃ s1, textInput st0 119 = some (s1, true) ∧
      s1.trace.filter isNoteOn = [Action.noteOn 49 none] :=
  (textInput_note_dispatch st0 GuiInv_st0).1 1 (by decide)

theorem processAudioFrame_eq (buffer out : Nat → ℚ) (i : Nat) :
    processAudioFrame buffer out i =
      Function.update (Function.update out (2 * i) (buffer i)) (2 * i + 1) (buffer i) := by
  simp [processAudioFrame, NUM_CHANNELS, List.range_succ]

theorem processAudio_loop (buffer out : Nat → ℚ) (n : Nat) :
    (∀ i c, i < n → c < 2 →
      (List.range n).foldl (fun o i => processAudioFrame buffer o i) out (2 * i + c) =
        buffer i) ∧
    (∀ j, 2 * n ≤ j →
      (List.range n).foldl (fun o i => processAudioFrame buffer o i) out j = out j) := by
  induction n with
  | zero => exact ⟨fun i c hi => absurd hi (Nat.not_lt_zero i), fun j _ => rfl⟩
  | succ n ih =>
    rw [List.range_succ, List.foldl_append]
    simp only [List.foldl_cons, List.foldl_nil, processAudioFrame_eq]
    constructor
    · intro i c hi hc
      by_cases hin : i = n
      · subst hin
        interval_cases c
        · simp [Function.update]
        · simp [Function.update]
      · have hlt : i < n := by omega
        have h1 : 2 * i + c ≠ 2 * n + 1 := by omega
        have h2 : 2 * i + c ≠ 2 * n := by omega
        rw [Function.update_noteq h1, Function.update_noteq h2]
        exact ih.1 i c hlt hc
    · intro j hj
      have h1 : j ≠ 2 * n + 1 := by omega
      have h2 : j ≠ 2 * n := by omega
      rw [Function.update_noteq h1, Function.update_noteq h2]
      exact ih.2 j (by omega)

/-- C14: the audio pump copies the mono block to both channels. For every `n_frames`,
after `processAudio` the output holds `buffer[i]` at the positions `2·i + c` for every
frame `i < n_frames` and channel `c < 2`, every position from `2·n_frames` on is as it
was, and the sound engine was run once, between `lock` and `unlock`. -/
theorem processAudio_replicates (s : Termite) (buffer out_buffer : Nat → ℚ)
    (n_frames : Nat) :
    (∀ i c, i < n_frames → c < NUM_CHANNELS →
      (processAudio s buffer out_buffer n_frames).2 (NUM_CHANNELS * i + c) = buffer i) ∧
    (∀ j, NUM_CHANNELS * n_frames ≤ j →
      (processAudio s buffer out_buffer n_frames).2 j = out_buffer j) ∧
    (processAudio s buffer out_buffer n_frames).1.trace =
      s.trace ++ [Action.lock, Action.process, Action.unlock] := by
  obtain ⟨h1, h2⟩ := processAudio_loop buffer out_buffer n_frames
  exact ⟨h1, h2, rfl⟩

/-- C14, witness: two frames of the block `10, 20, …` written over silence. -/
theorem processAudio_replicates_witness :
    (processAudio st0 (fun i => 10 * (i + 1)) (fun _ => 0) 2).2 3 = 20 ∧
    (processAudio st0 (fun i => 10 * (i + 1)) (fun _ => 0) 2).2 4 = 0 := by
  obtain ⟨h1, h2, _⟩ := processAudio_replicates st0 (fun i => 10 * (i + 1)) (fun _ => 0) 2
  refine ⟨?_, h2 4 (by decide)⟩
  have := h1 1 1 (by decide) (by decide)
  norm_num [NUM_CHANNELS] at this
  exact this

/-- C15: `stop` destroys the mutex before it stops the audio stream. The actions of
`stop`, in order, are the destruction of the mutex, the stop of the display, the stop of
the audio stream and, when the stream is open, its closing; so in its trace the mutex is
destroyed at position `0` and the stream stopped at position `2`. -/
theorem stop_destroys_mutex_first (s : Termite) (isStreamOpen : Bool) :
    (stop s isStreamOpen).trace = s.trace ++
      ([Action.mutexDestroy, Action.guiStop, Action.stopStream] ++
        (if isStreamOpen then [Action.closeStream] else [])) ∧
    firstIndex Action.mutexDestroy (stop { s with trace := [] } isStreamOpen).trace = 0 ∧
    firstIndex Action.stopStream (stop { s with trace := [] } isStreamOpen).trace = 2 := by
  cases isStreamOpen
  · exact ⟨by simp [stop, Termite.emit], rfl, rfl⟩
  · exact ⟨by simp [stop, Termite.emit], rfl, rfl⟩

theorem sinkWritesCovered_append (pre post : List Action) (held : Bool) :
    sinkWritesCovered held (pre ++ post) =
      (sinkWritesCovered held pre && sinkWritesCovered (heldAfter held pre) post) := by
  induction pre generalizing held with
  | nil => simp [sinkWritesCovered, heldAfter]
  | cons a as ih =>
    cases a <;> simp [sinkWritesCovered, heldAfter, ih, Bool.and_assoc]

theorem heldAfter_keyboardNotes (key : Int) (l : List Int) (i : Nat) :
    heldAfter false (keyboardNotes key l i) = false := by
  induction l generalizing i with
  | nil => rfl
  | cons k ks ih =>
    by_cases hk : k = key
    · simp [keyboardNotes, hk, heldAfter, ih]
    · simp [keyboardNotes, hk, ih]

/-- The `switch` of `textInput` releases the mutex whenever it takes it. -/
theorem textInputSwitch_trace (s : Termite) (cur : String) (control : Ptr) (key : Int) :
    ∃ pre, (textInputSwitch s cur control key).1.trace = s.trace ++ pre ∧
      heldAfter false pre = false := by
  unfold textInputSwitch
  split_ifs with h1 h2 h3 h4 h5 h6
  · refine ⟨[Action.lock, Action.unlock], ?_, rfl⟩
    simp only [Termite.emit]
    split_ifs <;> simp
  · refine ⟨[Action.lock, Action.unlock], ?_, rfl⟩
    have ht := (eraseMidiLearn_frame (s.emit [Action.lock]) control).2.2.2.1
    simp only [Termite.emit] at ht
    simp [Termite.emit, ht]
  · exact ⟨[Action.drawControl control false], rfl, rfl⟩
  · exact ⟨[Action.drawControl control false], rfl, rfl⟩
  · exact ⟨[], by simp, rfl⟩
  · exact ⟨[], by simp, rfl⟩
  · exact ⟨_, rfl, heldAfter_keyboardNotes key KEYBOARD 0⟩
/-- C16: the keyboard path writes to a sink without the mutex. For every key other than
the exit key, when the display is well formed, `textInput` returns and the actions it
performs, starting with the mutex not held, contain a write to a sink of the sound engine
at a moment when the mutex is not held: the push of the selected control's value at the
end of `textInput` comes after every `unlock`. -/
theorem textInput_sink_write_outside_gate (s : Termite) (key : Int)
    (hkey : key ≠ KEY_F 1) (hg : GuiInv s) (ht : s.trace = []) :
    ∃ s1, textInput s key = some (s1, true) ∧ sinkWritesCovered false s1.trace = false := by
  obtain ⟨control, control1, _, _, e⟩ := textInput_eq s key hkey hg
  obtain ⟨pre, hpre, hheld⟩ := textInputSwitch_trace s s.gui_.getCurrentControl control key
  refine ⟨_, e, ?_⟩
  simp only [textInputFinish, Termite.emit, hpre, ht, List.nil_append]
  rw [sinkWritesCovered_append, hheld]
  simp only [pushValue]
  split_ifs <;> simp [sinkWritesCovered]

/-- C16, witness: the right key on the state `st0`. -/
theorem textInput_sink_write_outside_gate_witness :
    ∃ s1, textInput st0 KEY_RIGHT = some (s1, true) ∧
      sinkWritesCovered false s1.trace = false :=
  textInput_sink_write_outside_gate st0 KEY_RIGHT (by decide) GuiInv_st0 rfl

/-- C17: the clear key does not remove a binding to the controller id `0`. From `st0`
the toggle key and the controller message `176 0 0` bind the id `0` to the selected
control at address `1`; after the clear key the mode is `STANDARD` and the stored id is
`0`, but the reverse map still has the entry `0 ↦ 1`, which refers to the selected
control. -/
theorem textInput_clear_keeps_entry :
    ∃ s0 s, run st0 [Call.key KEY_m, Call.midi [byte 176, byte 0, byte 0]] = some s0 ∧
      s0.midi_learn_ 0 = some 1 ∧ (s0.heap 1).midi_learn = 0 ∧
      textInput s0 KEY_c = some (s, true) ∧
      s.controls_ s.gui_.getCurrentControl = some 1 ∧
      s.state_ = InputState.STANDARD ∧ (s.heap 1).midi_learn = 0 ∧
      s.midi_learn_ 0 = some 1 := by
  refine ⟨_, _, rfl, ?_, ?_, rfl, ?_, ?_, ?_, ?_⟩ <;> decide

/-- The right and left keys: `d` is the signed step. -/
theorem textInput_arrow (s : Termite) (sel : Ptr) (key : Int)
    (hsel : s.controls_ s.gui_.getCurrentControl = some sel)
    (hkey : key = KEY_RIGHT ∨ key = KEY_LEFT) (hR : (s.heap sel).resolution ≠ 0) :
    ∃ s1, textInput s key = some (s1, true) ∧
      (s1.heap sel).current_value =
        CLAMP ((s.heap sel).current_value +
            (if key = KEY_RIGHT then 1 else -1) *
              (((s.heap sel).max - (s.heap sel).min) / ((s.heap sel).resolution : ℚ)))
          (s.heap sel).min (s.heap sel).max ∧
      (∀ q, q ≠ sel → (s1.heap q).current_value = (s.heap q).current_value) ∧
      s1.gui_ = s.gui_ ∧ s1.state_ = s.state_ ∧ s1.midi_learn_ = s.midi_learn_ ∧
      (∀ q, (s1.heap q).midi_learn = (s.heap q).midi_learn) := by
  rcases hkey with h | h <;> subst h
  · have k0 : KEY_RIGHT ≠ KEY_F 1 := by decide
    have k1 : KEY_RIGHT ≠ KEY_m := by decide
    have k2 : KEY_RIGHT ≠ KEY_c := by decide
    have k3 : KEY_RIGHT ≠ KEY_UP := by decide
    have k4 : KEY_RIGHT ≠ KEY_DOWN := by decide
    simp only [textInput, if_neg k0, hsel, textInputSwitch, if_neg k1, if_neg k2, if_neg k3,
      if_neg k4, if_true]
    obtain ⟨f1, f2, f3, _, f5⟩ := keyStep_fields (s.heap sel) true
    obtain ⟨v1, _⟩ := keyStep_of_ne_zero (s.heap sel) true hR
    refine ⟨_, rfl, ?_, fun q hq => ?_, rfl, rfl, rfl, fun q => ?_⟩
    · simp [textInputFinish, Termite.emit, f2, f3, v1]
    · simp [textInputFinish, Termite.emit, Function.update_noteq hq]
    · by_cases hq : q = sel
      · subst hq; simp [textInputFinish, Termite.emit, f5]
      · simp [textInputFinish, Termite.emit, Function.update_noteq hq]
  · have k0 : KEY_LEFT ≠ KEY_F 1 := by decide
    have k1 : KEY_LEFT ≠ KEY_m := by decide
    have k2 : KEY_LEFT ≠ KEY_c := by decide
    have k3 : KEY_LEFT ≠ KEY_UP := by decide
    have k4 : KEY_LEFT ≠ KEY_DOWN := by decide
    have k5 : KEY_LEFT ≠ KEY_RIGHT := by decide
    simp only [textInput, if_neg k0, hsel, textInputSwitch, if_neg k1, if_neg k2, if_neg k3,
      if_neg k4, if_neg k5, if_true]
    obtain ⟨f1, f2, f3, _, f5⟩ := keyStep_fields (s.heap sel) false
    obtain ⟨v1, _⟩ := keyStep_of_ne_zero (s.heap sel) false hR
    refine ⟨_, rfl, ?_, fun q hq => ?_, rfl, rfl, rfl, fun q => ?_⟩
    · simp [textInputFinish, Termite.emit, f2, f3, v1, sub_eq_add_neg]
    · simp [textInputFinish, Termite.emit, Function.update_noteq hq]
    · by_cases hq : q = sel
      · subst hq; simp [textInputFinish, Termite.emit, f5]
      · simp [textInputFinish, Termite.emit, Function.update_noteq hq]

/-- C18: the right and left keys. For the selected control, with `min ≤ max`,
`resolution > 0` and the value `v`, `textInput` of the right key returns and leaves
`current_value = CLAMP(v + (max − min)/resolution, min, max)`, of the left key
`current_value = CLAMP(v − (max − min)/resolution, min, max)`; the new value is in
`[min, max]`, no other control's value changes, and the selection, the mode, the reverse
map and every stored binding are as before. -/
theorem textInput_step (s : Termite) (sel : Ptr)
    (hsel : s.controls_ s.gui_.getCurrentControl = some sel)
    (hm : (s.heap sel).min ≤ (s.heap sel).max) (hR : 0 < (s.heap sel).resolution) :
    (∃ s1, textInput s KEY_RIGHT = some (s1, true) ∧
      (s1.heap sel).current_value =
        CLAMP ((s.heap sel).current_value +
            ((s.heap sel).max - (s.heap sel).min) / ((s.heap sel).resolution : ℚ))
          (s.heap sel).min (s.heap sel).max ∧
      (s.heap sel).min ≤ (s1.heap sel).current_value ∧
      (s1.heap sel).current_value ≤ (s.heap sel).max ∧
      (∀ q, q ≠ sel → (s1.heap q).current_value = (s.heap q).current_value) ∧
      s1.gui_ = s.gui_ ∧ s1.state_ = s.state_ ∧ s1.midi_learn_ = s.midi_learn_ ∧
      (∀ q, (s1.heap q).midi_learn = (s.heap q).midi_learn)) ∧
    (∃ s1, textInput s KEY_LEFT = some (s1, true) ∧
      (s1.heap sel).current_value =
        CLAMP ((s.heap sel).current_value -
            ((s.heap sel).max - (s.heap sel).min) / ((s.heap sel).resolution : ℚ))
          (s.heap sel).min (s.heap sel).max ∧
      (s.heap sel).min ≤ (s1.heap sel).current_value ∧
      (s1.heap sel).current_value ≤ (s.heap sel).max ∧
      (∀ q, q ≠ sel → (s1.heap q).current_value = (s.heap q).current_value) ∧
      s1.gui_ = s.gui_ ∧ s1.state_ = s.state_ ∧ s1.midi_learn_ = s.midi_learn_ ∧
      (∀ q, (s1.heap q).midi_learn = (s.heap q).midi_learn)) := by
  constructor
  · obtain ⟨s1, e, v, r⟩ := textInput_arrow s sel KEY_RIGHT hsel (Or.inl rfl) (ne_of_gt hR)
    simp only [if_true, one_mul] at v
    have hc := CLAMP_mem_range ((s.heap sel).current_value +
      ((s.heap sel).max - (s.heap sel).min) / ((s.heap sel).resolution : ℚ)) _ _ hm
    exact ⟨s1, e, v, by rw [v]; exact hc.1, by rw [v]; exact hc.2, r⟩
  · obtain ⟨s1, e, v, r⟩ := textInput_arrow s sel KEY_LEFT hsel (Or.inr rfl) (ne_of_gt hR)
    have k5 : KEY_LEFT ≠ KEY_RIGHT := by decide
    simp only [if_neg k5, neg_one_mul, ← sub_eq_add_neg] at v
    have hc := CLAMP_mem_range ((s.heap sel).current_value -
      ((s.heap sel).max - (s.heap sel).min) / ((s.heap sel).resolution : ℚ)) _ _ hm
    exact ⟨s1, e, v, by rw [v]; exact hc.1, by rw [v]; exact hc.2, r⟩

/-- C18, witness: the right key on the state `st0` moves the selected control from `0`
to `1`. -/
theorem textInput_step_witness :
    ∃ s1, textInput st0 KEY_RIGHT = some (s1, true) ∧ (s1.heap 1).current_value = 1 := by
  obtain ⟨s1, e, v, _⟩ := (textInput_step st0 1 rfl (by simp [st0, knob])
    (by simp [st0, knob])).1
  refine ⟨s1, e, ?_⟩
  rw [v]
  norm_num [st0, knob, CLAMP]

/-- C19: a learn-bound pitch-bend message does neither of its two actions. After startup
with the controls `""` and `"x"`, the toggle key and the controller message `176 5 0`
bind the controller id `5` to the control at address `1`; `processMidi` then returns on
the controller message `176 5 127`, but the pitch-bend message `224 5 127` makes it fail
at the null `pitch_bend_`, before the controller step: it pushes no pitch-bend value and
does not update the bound control. -/
theorem processMidi_bound_pitch_bend_fails :
    ∃ s0 s, setupGui (Termite.construct (fun _ => knob)) [("", 1), ("x", 2)] = some s0 ∧
      run s0 [Call.key KEY_m, Call.midi [byte 176, byte 5, byte 0]] = some s ∧
      s.midi_learn_ 5 = some 1 ∧ s.pitch_bend_ = none ∧
      (∃ s1, processMidi s [byte 176, byte 5, byte 127] = some s1) ∧
      processMidi s [byte 224, byte 5, byte 127] = none :=
  ⟨_, _, rfl, rfl, by decide, rfl, ⟨_, rfl⟩, rfl⟩

/-- What the up and down keys leave of the state before the final clamp. -/
theorem textInputSwitch_navigation (s : Termite) (cur : String) (control : Ptr) (key : Int)
    (hkey : key = KEY_UP ∨ key = KEY_DOWN) :
    (textInputSwitch s cur control key).1.state_ = InputState.STANDARD ∧
    (textInputSwitch s cur control key).1.midi_learn_ = s.midi_learn_ ∧
    (textInputSwitch s cur control key).1.heap = s.heap := by
  have k1 : KEY_UP ≠ KEY_m := by decide
  have k2 : KEY_UP ≠ KEY_c := by decide
  have k3 : KEY_DOWN ≠ KEY_m := by decide
  have k4 : KEY_DOWN ≠ KEY_c := by decide
  have k5 : KEY_DOWN ≠ KEY_UP := by decide
  rcases hkey with h | h <;> subst h
  · simp [textInputSwitch, k1, k2, Termite.emit]
  · simp [textInputSwitch, k3, k4, k5, Termite.emit]

/-- C20, counterexample: with a single control, whose range is `[0, 1]` and whose value
is `2`, the down key wraps to the same control, and the clamp that follows changes the
value of the previously selected control from `2` to `1`. -/
theorem textInput_navigation_counterexample :
    ∃ s1, textInput
        { st0 with
          gui_ := { order := [""], current := 0 }
          heap := fun _ => { knob with current_value := 2 } } KEY_DOWN = some (s1, true) ∧
      s1.controls_ s1.gui_.getCurrentControl = some 1 ∧
      s1.state_ = InputState.STANDARD ∧ (s1.heap 1).current_value = 1 := by
  refine ⟨_, rfl, by decide, by decide, ?_⟩
  norm_num [textInputFinish, textInputSwitch, TermiteGui.getCurrentControl,
    TermiteGui.getNextControl, Termite.emit, st0, knob, CLAMP, KEY_DOWN, KEY_m, KEY_c,
    KEY_UP]

/-- C20 (amended): the up and down keys cancel learn mode. When the display is well
formed, `textInput` of the up key or the down key returns with the mode `STANDARD`, the
reverse map, every stored binding and every NaN flag as before; the value of a control
`prev`, in particular of the previously selected one, is as before when the newly
selected control is another one, and also when it is the same one and the value was in
`[min, max]`, since only the newly selected control is clamped. -/
theorem textInput_navigation (s : Termite) (key : Int) (prev : Ptr)
    (hkey : key = KEY_UP ∨ key = KEY_DOWN) (hg : GuiInv s) :
    ∃ s1 sel, textInput s key = some (s1, true) ∧
      s1.controls_ s1.gui_.getCurrentControl = some sel ∧
      s1.state_ = InputState.STANDARD ∧ s1.midi_learn_ = s.midi_learn_ ∧
      (∀ q, (s1.heap q).midi_learn = (s.heap q).midi_learn) ∧
      (∀ q, (s1.heap q).nan = (s.heap q).nan) ∧
      (sel ≠ prev → (s1.heap prev).current_value = (s.heap prev).current_value) ∧
      ((s.heap prev).min ≤ (s.heap prev).current_value →
        (s.heap prev).current_value ≤ (s.heap prev).max →
        (s1.heap prev).current_value = (s.heap prev).current_value) := by
  have hF : key ≠ KEY_F 1 := by
    rcases hkey with h | h <;> subst h <;> decide
  obtain ⟨control, control1, hc, hc1, e⟩ := textInput_eq s key hF hg
  obtain ⟨e1, _, _, _⟩ := textInputSwitch_selection s control key hg.1
  obtain ⟨f1, _⟩ := textInputSwitch_frame s s.gui_.getCurrentControl control key
  obtain ⟨n1, n2, n3⟩ := textInputSwitch_navigation s s.gui_.getCurrentControl control key hkey
  refine ⟨_, control1, e, ?_, ?_, ?_, fun q => ?_, fun q => ?_, fun hne => ?_,
    fun h1 h2 => ?_⟩
  · simp only [textInputFinish, Termite.emit, f1, ← e1]
    exact hc1
  · simp only [textInputFinish, Termite.emit]
    exact n1
  · simp only [textInputFinish, Termite.emit]
    exact n2
  · by_cases hq : q = control1
    · subst hq; simp [textInputFinish, Termite.emit, n3]
    · simp [textInputFinish, Termite.emit, Function.update_noteq hq, n3]
  · by_cases hq : q = control1
    · subst hq; simp [textInputFinish, Termite.emit, n3]
    · simp [textInputFinish, Termite.emit, Function.update_noteq hq, n3]
  · simp [textInputFinish, Termite.emit, Function.update_noteq (Ne.symm hne), n3]
  · by_cases hq : prev = control1
    · subst hq
      simp [textInputFinish, Termite.emit, n3, CLAMP_of_mem_range _ _ _ h1 h2]
    · simp [textInputFinish, Termite.emit, Function.update_noteq hq, n3]

/-- C20, witness: on the state `st0` in `MIDI_LEARN` mode the down key selects the
control at address `2` and sets the mode to `STANDARD`. -/
theorem textInput_navigation_witness :
    ∃ s1 sel, textInput { st0 with state_ := InputState.MIDI_LEARN } KEY_DOWN =
        some (s1, true) ∧
      s1.controls_ s1.gui_.getCurrentControl = some sel ∧
      s1.state_ = InputState.STANDARD :=
  (textInput_navigation { st0 with state_ := InputState.MIDI_LEARN } KEY_DOWN 1
    (Or.inr rfl) GuiInv_st0).imp fun _ h => h.imp fun _ h => ⟨h.1, h.2.1, h.2.2.1⟩

end laf
